import Mathlib

/-!
# lgr: a levelled logger (va-slyusarev/lgr), shallow embedding

Source: `lgr.go`.  Go strings are modelled as Lean `String`s, that is as
sequences of Unicode code points (valid UTF-8 text); a Go `error` is modelled
by its text, `nil` by `none`.  The logger is used sequentially, so the mutex
`mu` carries no state in the model.
-/

namespace Lgr

/-- A Go `string`. -/
abbrev GoString : Type := String

deriving instance DecidableEq for Except

/-! ## Library functions used by `lgr.go` (`strings`, `unicode`) -/

/-- The function `unicode.SimpleFold` on the orbits that contain an ASCII rune:
`A`..`Z` and `a`..`z` swap case, except that `k` continues to the Kelvin sign
U+212A and `s` to the long s U+017F, which return to `K` and `S`.  Every other
ASCII rune is its own orbit.  `EqualFold` below only folds the smaller rune of
a pair; in this package one operand is always an ASCII level name, so no other
orbit is ever asked for. -/
def simpleFold (r : Char) : Char :=
  if r = 'k' then Char.ofNat 0x212A
  else if r = 's' then Char.ofNat 0x17F
  else if r = Char.ofNat 0x212A then 'K'
  else if r = Char.ofNat 0x17F then 'S'
  else if 65 ≤ r.toNat ∧ r.toNat ≤ 90 then Char.ofNat (r.toNat + 32)
  else if 97 ≤ r.toNat ∧ r.toNat ≤ 122 then Char.ofNat (r.toNat - 32)
  else r

/-- The loop `for r != sr && r < tr { r = unicode.SimpleFold(r) }` of
`strings.EqualFold`; an orbit that contains an ASCII rune has at most three
members, so three rounds exhaust it. -/
def foldUpTo : Nat → Char → Char → Char → Char
  | 0, r, _, _ => r
  | n + 1, r, sr, tr =>
    if r ≠ sr ∧ r.toNat < tr.toNat then foldUpTo n (simpleFold r) sr tr else r

/-- One round of the rune loop of `strings.EqualFold`: do the runes `sr` and
`tr` match under simple case folding?  (`lo`, `hi` are `sr`, `tr` after the
swap that makes `sr < tr`.) -/
def equalFoldRune (sr tr : Char) : Bool :=
  if tr = sr then true
  else
    let lo := if tr.toNat < sr.toNat then tr else sr
    let hi := if tr.toNat < sr.toNat then sr else tr
    if hi.toNat < 128 then
      decide (65 ≤ lo.toNat ∧ lo.toNat ≤ 90 ∧ hi.toNat = lo.toNat + 32)
    else
      decide (foldUpTo 3 (simpleFold lo) lo hi = hi)

/-- The rune-by-rune comparison of `strings.EqualFold`.  The byte loop for
ASCII and the rune loop entered at the first non-ASCII byte apply the same
test to a pair of ASCII runes, and both end with "both strings exhausted". -/
def equalFoldRunes : List Char → List Char → Bool
  | [], [] => true
  | [], _ :: _ => false
  | _ :: _, [] => false
  | sr :: s, tr :: t => if equalFoldRune sr tr then equalFoldRunes s t else false

/-- `strings.EqualFold(s, t)`. -/
def EqualFold (s t : String) : Bool := equalFoldRunes s.data t.data

/-- `strings.TrimSuffix(s, "\n")`: `s` without one trailing line feed. -/
def trimNewline (s : String) : String :=
  if s.data.getLast? = some '\n' then String.mk s.data.dropLast else s

/-! ## Library functions used by `lgr.go` (`fmt`, `path`, `time`)

`fmt.Sprintf` is modelled for the directives that `lgr.go` and its preset
templates use: literal text, `%%`, and the verbs `s`, `v` (string operand)
and `d`, `v` (integer operand) with an optional `-` flag and an optional
decimal width.  Any other directive is outside the model (`none`). -/

/-- An operand of `fmt.Sprintf`: a string (also the text of a `Stringer` or of
an `error`) or an integer. -/
inductive Arg where
  | str (s : GoString)
  | int (n : Int)
  deriving DecidableEq, Repr

/-- The padding of `fmt`: `s` brought to `width` runes by spaces, on the right
when the flag `-` is set and on the left otherwise; never truncated. -/
def pad (minus : Bool) (width : Nat) (s : List Char) : List Char :=
  if minus then s ++ List.replicate (width - s.length) ' '
  else List.replicate (width - s.length) ' ' ++ s

/-- The decimal digits of a natural number, with `fuel` digits at most. -/
def natDigits : Nat → Nat → List Char
  | 0, _ => []
  | fuel + 1, n =>
    (if n / 10 = 0 then [] else natDigits fuel (n / 10)) ++ [Char.ofNat (48 + n % 10)]

/-- The decimal text of an integer (`strconv.Itoa`, verb `%d`). -/
def itoa (n : Int) : List Char :=
  if n < 0 then '-' :: natDigits (n.natAbs + 1) n.natAbs else natDigits (n.natAbs + 1) n.natAbs

/-- The text `%!(EXTRA type=value, ...)` that `Sprintf` appends for operands
left over. -/
def extraArgs : List Arg → List Char
  | [] => []
  | a :: as =>
    (match a with
      | .str s => "string=".data ++ s.data
      | .int n => "int=".data ++ itoa n)
    ++ (if as.isEmpty then [] else ", ".data ++ extraArgs as)

/-- Where `doPrintf` stands in the format: in literal text, or after `%` with
the flag `-` seen or not and the width read so far. -/
inductive Directive where
  | lit
  | flags (minus : Bool)
  | width (minus : Bool) (w : Nat)
  deriving DecidableEq, Repr

/-- One verb of `doPrintf` applied to the next operand: what is printed and
the operands that remain; `none` outside the model. -/
def printVerb (minus : Bool) (width : Nat) (verb : Char) (args : List Arg) :
    Option (List Char × List Arg) :=
  if verb = 's' ∨ verb = 'v' ∨ verb = 'd' then
    match args with
    | [] => some ("%!".data ++ [verb] ++ "(MISSING)".data, [])
    | .str s :: rest => if verb = 'd' then none else some (pad minus width s.data, rest)
    | .int n :: rest => if verb = 's' then none else some (pad minus width (itoa n), rest)
  else none

/-- The end of `doPrintf`: operands left over are reported. -/
def finishPrintf : List Arg → List Char
  | [] => []
  | a :: as => "%!(EXTRA ".data ++ extraArgs (a :: as) ++ [')']

/-- The loop of `fmt.(*pp).doPrintf` over the format. -/
def doPrintf : Directive → List Char → List Arg → Option (List Char)
  | .lit, [], args => some (finishPrintf args)
  | .lit, c :: cs, args =>
    if c = '%' then doPrintf (.flags false) cs args
    else (doPrintf .lit cs args).map (c :: ·)
  | .flags _, [], args => some ("%!(NOVERB)".data ++ finishPrintf args)
  | .flags minus, c :: cs, args =>
    if c = '-' then doPrintf (.flags true) cs args
    else if c = '%' then
      if minus then none else (doPrintf .lit cs args).map ('%' :: ·)
    else if 49 ≤ c.toNat ∧ c.toNat ≤ 57 then doPrintf (.width minus (c.toNat - 48)) cs args
    else
      match printVerb minus 0 c args with
      | some (out, rest) => (doPrintf .lit cs rest).map (out ++ ·)
      | none => none
  | .width _ _, [], args => some ("%!(NOVERB)".data ++ finishPrintf args)
  | .width minus w, c :: cs, args =>
    if 48 ≤ c.toNat ∧ c.toNat ≤ 57 then
      if w > 1000000 then none else doPrintf (.width minus (w * 10 + (c.toNat - 48))) cs args
    else
      match printVerb minus w c args with
      | some (out, rest) => (doPrintf .lit cs rest).map (out ++ ·)
      | none => none

/-- `fmt.Sprintf(format, args...)`, as far as modelled. -/
def Sprintf? (format : GoString) (args : List Arg) : Option GoString :=
  (doPrintf .lit format.data args).map String.mk

/-- `fmt.Sprintf(format, args...)` for the formats written in `lgr.go`, all of
which are inside the model. -/
def Sprintf (format : GoString) (args : List Arg) : GoString :=
  (Sprintf? format args).getD ""

/-- `path.Split(p)`: the directory up to and including the final slash, and
the file after it. -/
def pathSplit (p : GoString) : GoString × GoString :=
  let file := (p.data.reverse.takeWhile (· ≠ '/')).reverse
  (String.mk (p.data.take (p.data.length - file.length)), String.mk file)

/-- `path.Base(p)`: the last element of the path; trailing slashes are
removed first, the empty path gives `.`, a path of slashes only gives `/`. -/
def pathBase (p : GoString) : GoString :=
  if p.data.isEmpty then "."
  else
    let q := (p.data.reverse.dropWhile (· = '/')).reverse
    let b := (q.reverse.takeWhile (· ≠ '/')).reverse
    if b.isEmpty then "/" else String.mk b

/-- A `time.Time` by its calendar date and clock reading in its location. -/
structure Time where
  year : Int
  month : Nat
  day : Nat
  hour : Nat
  minute : Nat
  second : Nat
  nanosecond : Nat
  deriving DecidableEq, Repr

/-- The digits of `n` zero-padded on the left to `width` (`appendInt`). -/
def zeroPad (width : Nat) (n : Int) : List Char :=
  let d := natDigits (n.natAbs + 1) n.natAbs
  (if n < 0 then ['-'] else []) ++ List.replicate (width - d.length) '0' ++ d

/-- The first `n` of the nine digits of the nanoseconds (`formatNano`). -/
def fracDigits (n : Nat) (nanosecond : Nat) : List Char :=
  (zeroPad 9 (nanosecond % 1000000000 : Nat)).take n

/-- Does the layout go on with a decimal digit? -/
def startsWithDigit : List Char → Bool
  | [] => false
  | c :: _ => decide (48 ≤ c.toNat ∧ c.toNat ≤ 57)

/-- `time.Time.Format(layout)` for layouts made of literal characters and of
the chunks `2006`, `01`, `02`, `15`, `04`, `05` and `.000` (a separator `.` or
`,` and a run of zeros that no digit follows).  A character that could begin
another chunk of the layout language of `time` is outside the model (`none`).
The fuel bounds the number of chunks. -/
def formatChunks (t : Time) : Nat → List Char → Option (List Char)
  | 0, _ => none
  | _ + 1, [] => some []
  | f + 1, '2' :: '0' :: '0' :: '6' :: cs => (formatChunks t f cs).map (zeroPad 4 t.year ++ ·)
  | f + 1, '0' :: '1' :: cs => (formatChunks t f cs).map (zeroPad 2 t.month ++ ·)
  | f + 1, '0' :: '2' :: cs => (formatChunks t f cs).map (zeroPad 2 t.day ++ ·)
  | f + 1, '1' :: '5' :: cs => (formatChunks t f cs).map (zeroPad 2 t.hour ++ ·)
  | f + 1, '0' :: '4' :: cs => (formatChunks t f cs).map (zeroPad 2 t.minute ++ ·)
  | f + 1, '0' :: '5' :: cs => (formatChunks t f cs).map (zeroPad 2 t.second ++ ·)
  | f + 1, c :: cs =>
    if c = '.' ∨ c = ',' then
      match cs with
      | '0' :: _ =>
        let rest := cs.dropWhile (· = '0')
        if startsWithDigit rest then none
        else (formatChunks t f rest).map
          ((c :: fracDigits (cs.takeWhile (· = '0')).length t.nanosecond) ++ ·)
      | '9' :: _ => none
      | _ => (formatChunks t f cs).map (c :: ·)
    else if c ∈ "JM0123456789_Pp-Z".data then none
    else (formatChunks t f cs).map (c :: ·)

/-- `t.Format(layout)`, as far as modelled. -/
def Time.Format (t : Time) (layout : GoString) : Option GoString :=
  (formatChunks t (layout.data.length + 1) layout.data).map String.mk

/-! ## Levels -/

/-- Level `DEBUG`. -/
def DEBUG : String := "DEBUG"
/-- Level `INFO`. -/
def INFO : String := "INFO"
/-- Level `WARN`. -/
def WARN : String := "WARN"
/-- Level `ERROR`. -/
def ERROR : String := "ERROR"

/-- The map `levels` as its key/value pairs: levels and priority. -/
def levelTable : List (GoString × Nat) := [(DEBUG, 0), (INFO, 1), (WARN, 2), (ERROR, 3)]

/-- The map lookup `levels[k]`; a missing key yields the zero value `0`. -/
def levels (k : GoString) : Nat :=
  match levelTable.lookup k with
  | some p => p
  | none => 0

/-- The keys of `levels`. -/
def levelKeys : List GoString := levelTable.map Prod.fst

/-- An order in which `range levels` may visit the keys: Go leaves the order
of map iteration unspecified, each key is visited once. -/
def KeyOrder : Type := { o : List GoString // o.Perm levelKeys }

/-- The order in which the map literal lists the keys. -/
def KeyOrder.listed : KeyOrder := ⟨levelKeys, List.Perm.refl _⟩

/-- The type `level`. -/
structure level where
  value : GoString
  deriving DecidableEq, Repr

/-- The method `level.String`. -/
def level.String (l : level) : GoString := l.value

/-- The loop of `level.Set` over the keys in the order `keys`: the first key
that folds to `value`, if any. -/
def level.scan (value : GoString) : List GoString → Option GoString
  | [] => none
  | k :: ks => if EqualFold value k then some k else level.scan value ks

/-- The method `level.Set`, with the order `o` of the map iteration: the
returned error and the level afterwards. -/
def level.Set (o : KeyOrder) (l : level) (value : GoString) : Option GoString × level :=
  match level.scan value o.val with
  | some k => (none, { l with value := k })
  | none => (some (Sprintf "lgr: set level: value %s is unknown" [.str value]), l)

/-- The method `level.allowed`: the current priority level allows the output
of messages of level `value`. -/
def level.allowed (o : KeyOrder) (l : level) (value : GoString) : Bool :=
  let v : level := { value := "" }
  match level.Set o v value with
  | (none, v1) => decide (levels v1.value ≥ levels l.value)
  | (some _, _) => false

/-! ## The message record and the template language (`text/template`)

The library `text/template` is modelled for the part of its language that the
presets and the tests of this package are written in: literal text, actions
`{{ ... }}` holding one command, field chains (`.Prefix`, `.TS.Format`), string
constants without escapes, the function `printf`, and `if` / `else` / `end`.
Everything else of the language (comments, trim markers, variables, pipes,
parentheses, numbers, `range`, `with`, `define`, ...) is outside the model and
is reported as an error whose text starts with `unmodelled`.  Error texts are
given without the position that the library puts in front of them. -/

/-- The type `message`: the information about the logged message that the
template sees. -/
structure message where
  TS : Time
  Level : GoString
  Caller : GoString
  Prefix : GoString
  Message : GoString
  deriving DecidableEq, Repr

/-- A token inside an action. -/
inductive Tok where
  | space
  | dot
  | field (name : List Char)
  | ident (name : List Char)
  | str (text : List Char)
  | kwIf
  | kwElse
  | kwEnd
  deriving DecidableEq, Repr

/-- An item of the lexer: literal text or a delimiter or a token. -/
inductive Item where
  | text (s : List Char)
  | leftDelim
  | rightDelim
  | tok (t : Tok)
  deriving DecidableEq, Repr

/-- The predicate `isSpace` of the lexer. -/
def isSpace (c : Char) : Bool := c = ' ' || c = '\t' || c = '\r' || c = '\n'

/-- The predicate `isAlphaNumeric` of the lexer on ASCII: underscore, letter
or digit. -/
def isAlphaNumeric (c : Char) : Bool :=
  c = '_' || decide (48 ≤ c.toNat ∧ c.toNat ≤ 57) || decide (65 ≤ c.toNat ∧ c.toNat ≤ 90)
    || decide (97 ≤ c.toNat ∧ c.toNat ≤ 122)

/-- Does the input go on with the right delimiter? -/
def atRightDelim : List Char → Bool
  | '}' :: '}' :: _ => true
  | _ => false

/-- The predicate `atTerminator` of the lexer: what may follow a field or an
identifier. -/
def atTerminator : List Char → Bool
  | [] => true
  | c :: cs => isSpace c || c ∈ ".,|:)(".data || atRightDelim (c :: cs)

/-- Does the input go on with a rune outside ASCII? -/
def atNonASCII : List Char → Bool
  | [] => false
  | c :: _ => decide (128 ≤ c.toNat)

/-- The text up to the first left delimiter, and what follows that delimiter
if there is one (`strings.Index` in `lexText`). -/
def splitLeftDelim : List Char → List Char × Option (List Char)
  | [] => ([], none)
  | '{' :: '{' :: rest => ([], some rest)
  | c :: cs => (c :: (splitLeftDelim cs).1, (splitLeftDelim cs).2)

/-- The key-word table of the lexer on a scanned word. -/
def lexWord (word : List Char) : Except GoString Tok :=
  if word = "if".data then .ok .kwIf
  else if word = "else".data then .ok .kwElse
  else if word = "end".data then .ok .kwEnd
  else if String.mk word ∈ ["block", "break", "continue", "define", "range", "nil",
      "template", "with", "true", "false"] then
    .error ("unmodelled: key word " ++ String.mk word)
  else .ok (.ident word)

/-- The lexer: `lexText` when `inside` is false, `lexInsideAction` with the
states it calls (`lexSpace`, `lexField`, `lexIdentifier`, `lexQuote`) when it
is true.  Every call consumes input; the fuel is the length of the input. -/
def lex : Nat → Bool → List Char → Except GoString (List Item)
  | 0, _, _ => .error "unmodelled: out of fuel"
  | f + 1, false, input =>
    match splitLeftDelim input with
    | (text, none) => .ok (if text.isEmpty then [] else [.text text])
    | (text, some rest) =>
      match rest with
      | '-' :: c :: _ =>
        if isSpace c then .error "unmodelled: trim marker"
        else (lex f true rest).map
          ((if text.isEmpty then [] else [Item.text text]) ++ Item.leftDelim :: ·)
      | '/' :: '*' :: _ => .error "unmodelled: comment"
      | _ => (lex f true rest).map
          ((if text.isEmpty then [] else [Item.text text]) ++ Item.leftDelim :: ·)
  | _ + 1, true, [] => .error "unclosed action"
  | f + 1, true, '}' :: '}' :: rest => (lex f false rest).map (Item.rightDelim :: ·)
  | f + 1, true, c :: cs =>
    if isSpace c then
      (lex f true (cs.dropWhile isSpace)).map (Item.tok .space :: ·)
    else if c = '"' then
      match cs.dropWhile (fun x => x ≠ '"' ∧ x ≠ '\\' ∧ x ≠ '\n') with
      | '"' :: rest =>
        (lex f true rest).map
          (Item.tok (.str (cs.takeWhile (fun x => x ≠ '"' ∧ x ≠ '\\' ∧ x ≠ '\n'))) :: ·)
      | '\\' :: _ => .error "unmodelled: escape in string"
      | _ => .error "unterminated quoted string"
    else if c = '.' then
      if startsWithDigit cs then .error "unmodelled: number"
      else
        let name := cs.takeWhile isAlphaNumeric
        let rest := cs.dropWhile isAlphaNumeric
        if atNonASCII rest then .error "unmodelled: rune outside ASCII in action"
        else if !atTerminator rest then .error "bad character"
        else (lex f true rest).map
          (Item.tok (if name.isEmpty then .dot else .field name) :: ·)
    else if isAlphaNumeric c && !startsWithDigit [c] then
      let word := c :: cs.takeWhile isAlphaNumeric
      let rest := cs.dropWhile isAlphaNumeric
      if atNonASCII rest then .error "unmodelled: rune outside ASCII in action"
      else if !atTerminator rest then .error "bad character"
      else
        match lexWord word with
        | .ok t => (lex f true rest).map (Item.tok t :: ·)
        | .error e => .error e
    else .error "unmodelled: character in action"

/-- An operand of a command. -/
inductive Operand where
  | dot
  | field (idents : List GoString)
  | ident (name : GoString)
  | str (text : GoString)
  | chain (name : GoString) (idents : List GoString)
  deriving DecidableEq, Repr

/-- A command: its operands.  Without pipes a pipeline is one command. -/
abbrev Command : Type := List Operand

/-- A node of the parse tree. -/
inductive Node where
  | text (s : GoString)
  | action (pipe : Command)
  | ifNode (pipe : Command) (list : List Node) (elseList : Option (List Node))
  deriving Repr

/-- What one action turns out to be. -/
inductive Action where
  | pipe (c : Command)
  | ifA (c : Command)
  | elseA
  | endA
  deriving DecidableEq, Repr

/-- The tokens after leading spaces (`nextNonSpace`, `peekNonSpace`). -/
def skipSpace : List Tok → List Tok
  | .space :: ts => skipSpace ts
  | ts => ts

/-- The names of the fields that follow a term directly, and the tokens after
them (the chain loop of `operand`). -/
def takeFields : List Tok → List GoString × List Tok
  | .field n :: ts => (String.mk n :: (takeFields ts).1, (takeFields ts).2)
  | ts => ([], ts)

/-- The functions that a template may call (`builtins`). -/
def builtinFuncs : List GoString :=
  ["and", "call", "html", "index", "slice", "js", "len", "not", "or", "print", "printf",
   "println", "urlquery", "eq", "ge", "gt", "le", "lt", "ne"]

/-- The methods `term` and `operand` of the parser at a token that starts an
operand: the operand and the tokens after it. -/
def operand (t : Tok) (ts : List Tok) : Except GoString (Operand × List Tok) :=
  let chain := takeFields ts
  match t with
  | .field n => .ok (.field (String.mk n :: chain.1), chain.2)
  | .dot => if chain.1.isEmpty then .ok (.dot, ts) else .error "unexpected . after term"
  | .str x =>
    if chain.1.isEmpty then .ok (.str (String.mk x), ts) else .error "unexpected . after term"
  | .ident n =>
    if String.mk n ∈ builtinFuncs then
      .ok (if chain.1.isEmpty then (.ident (String.mk n), ts)
        else (.chain (String.mk n) chain.1, chain.2))
    else .error ("function " ++ String.mk n ++ " not defined")
  | _ => .error "unexpected token in operand"

/-- The method `command` of the parser: operands separated by spaces, up to
the right delimiter. -/
def command : Nat → List Tok → Except GoString Command
  | 0, _ => .error "unmodelled: out of fuel"
  | f + 1, ts =>
    match skipSpace ts with
    | [] => .ok []
    | t :: rest =>
      match operand t rest with
      | .error e => .error e
      | .ok (op, after) =>
        match after with
        | [] => .ok [op]
        | .space :: more => (command f more).map (op :: ·)
        | _ => .error "unexpected token in operand"

/-- The method `pipeline` of the parser, for the tokens of an action up to the
right delimiter; `context` is `command` or `if`. -/
def pipeline (context : GoString) (ts : List Tok) : Except GoString Command :=
  match skipSpace ts with
  | [] => .error ("missing value for " ++ context)
  | ts1 => command (ts1.length + 1) ts1

/-- The method `action` of the parser, for the tokens between the delimiters. -/
def action (ts : List Tok) : Except GoString Action :=
  match skipSpace ts with
  | .kwElse :: rest =>
    match skipSpace rest with
    | [] => .ok .elseA
    | .kwIf :: _ => .error "unmodelled: else if"
    | _ => .error "unexpected token in else"
  | .kwEnd :: rest =>
    match skipSpace rest with
    | [] => .ok .endA
    | _ => .error "unexpected token in end"
  | .kwIf :: rest => (pipeline "if" rest).map .ifA
  | ts1 => (pipeline "command" ts1).map .pipe

/-- An `if` whose `end` has not been read: its pipeline, the list that it will
be appended to, and its first list once `else` was read. -/
structure Frame where
  pipe : Command
  outer : List Node
  thenList : Option (List Node)

/-- The tree builder (`parse`, `itemList`, `parseControl`): `stack` holds the
open `if`s, `cur` the list being filled, `pending` the tokens of the action
being read. -/
def build : List Item → List Frame → List Node → Option (List Tok) → Except GoString (List Node)
  | [], [], cur, none => .ok cur
  | [], _ :: _, _, none => .error "unexpected EOF"
  | [], _, _, some _ => .error "unclosed action"
  | .text s :: is, stack, cur, none => build is stack (cur ++ [.text (String.mk s)]) none
  | .leftDelim :: is, stack, cur, none => build is stack cur (some [])
  | .tok t :: is, stack, cur, some ts => build is stack cur (some (ts ++ [t]))
  | .rightDelim :: is, stack, cur, some ts =>
    match action ts with
    | .error e => .error e
    | .ok (.pipe c) => build is stack (cur ++ [.action c]) none
    | .ok (.ifA c) => build is ({ pipe := c, outer := cur, thenList := none } :: stack) [] none
    | .ok .elseA =>
      match stack with
      | [] => .error "unexpected \x7b\x7belse\x7d\x7d"
      | fr :: st =>
        match fr.thenList with
        | some _ => .error "expected end; found \x7b\x7belse\x7d\x7d"
        | none => build is ({ fr with thenList := some cur } :: st) [] none
    | .ok .endA =>
      match stack with
      | [] => .error "unexpected \x7b\x7bend\x7d\x7d"
      | fr :: st =>
        match fr.thenList with
        | none => build is st (fr.outer ++ [.ifNode fr.pipe cur none]) none
        | some tl => build is st (fr.outer ++ [.ifNode fr.pipe tl (some cur)]) none
  | _, _, _, _ => .error "unexpected item"

/-- A compiled template (`*template.Template`): its parse tree. -/
structure Template where
  Root : List Node
  deriving Repr

/-- `template.New("lgr").Parse(text)`: the compiled template or the error. -/
def Parse (text : GoString) : Except GoString Template :=
  match lex (text.data.length + 1) false text.data with
  | .error e => .error e
  | .ok items => (build items [] [] none).map Template.mk

/-- A value during execution: a string, the time stamp or the message (dot). -/
inductive Value where
  | str (s : GoString)
  | time (t : Time)
  | msg (m : message)
  deriving DecidableEq, Repr

/-- The method `evalField` of the executor without arguments: the field
`name` of the receiver. -/
def evalField (receiver : Value) (name : GoString) : Except GoString Value :=
  match receiver with
  | .msg m =>
    if name = "TS" then .ok (.time m.TS)
    else if name = "Level" then .ok (.str m.Level)
    else if name = "Caller" then .ok (.str m.Caller)
    else if name = "Prefix" then .ok (.str m.Prefix)
    else if name = "Message" then .ok (.str m.Message)
    else .error ("can't evaluate field " ++ name ++ " in type lgr.message")
  | .str _ => .error ("can't evaluate field " ++ name ++ " in type string")
  | .time _ => .error ("unmodelled: " ++ name ++ " of time.Time without arguments")

/-- The receiver of the last name of a field chain (the loop of
`evalFieldChain`). -/
def evalChain (receiver : Value) : List GoString → Except GoString Value
  | [] => .ok receiver
  | n :: ns =>
    match evalField receiver n with
    | .ok v => evalChain v ns
    | .error e => .error e

/-- The value of an operand in argument position (`evalArg`,
`evalEmptyInterface`). -/
def evalArg (dot : message) : Operand → Except GoString Value
  | .dot => .ok (.msg dot)
  | .str s => .ok (.str s)
  | .field ids => evalChain (.msg dot) ids
  | .ident _ => .error "unmodelled: function call as argument"
  | .chain _ _ => .error "unmodelled: chain"

/-- The values of the operands in argument position, in order. -/
def evalArgs (dot : message) : List Operand → Except GoString (List Value)
  | [] => .ok []
  | a :: as =>
    match evalArg dot a with
    | .error e => .error e
    | .ok v => (evalArgs dot as).map (v :: ·)

/-- The strings among the arguments of `printf`, as operands of `Sprintf`;
`none` when an argument is not a string. -/
def printfArgs : List Value → Option (List Arg)
  | [] => some []
  | .str s :: vs => (printfArgs vs).map (Arg.str s :: ·)
  | _ :: _ => none

/-- The call of a method or function with evaluated arguments (`evalCall`):
the method `Format` of the time stamp, the function `printf`. -/
def evalCall (receiver : Option Value) (name : GoString) (args : List Value) :
    Except GoString Value :=
  match receiver, args with
  | some (.time t), [.str layout] =>
    if name = "Format" then
      match t.Format layout with
      | some s => .ok (.str s)
      | none => .error "unmodelled: layout"
    else .error ("unmodelled: method " ++ name ++ " of time.Time")
  | some (.time _), _ =>
    if name = "Format" then .error "wrong number or type of args for Format"
    else .error ("unmodelled: method " ++ name ++ " of time.Time")
  | some _, _ => .error (name ++ " has arguments but cannot be invoked as function")
  | none, .str format :: rest =>
    if name = "printf" then
      match printfArgs rest with
      | none => .error "unmodelled: printf operand"
      | some as =>
        match Sprintf? format as with
        | some s => .ok (.str s)
        | none => .error "unmodelled: printf directive"
    else .error ("unmodelled: function " ++ name)
  | none, [] =>
    if name = "printf" then .error "wrong number of args for printf: want at least 1 got 0"
    else .error ("unmodelled: function " ++ name)
  | none, _ :: _ =>
    if name = "printf" then .error "wrong type for value; expected string"
    else .error ("unmodelled: function " ++ name)

/-- The receiver of the last name of a chain and that name. -/
def splitLast : List GoString → Option (List GoString × GoString)
  | [] => none
  | [n] => some ([], n)
  | n :: ns => (splitLast ns).map fun p => (n :: p.1, p.2)

/-- The method `evalCommand` of the executor: the value of a command. -/
def evalCommand (dot : message) (cmd : Command) : Except GoString Value :=
  match cmd with
  | [] => .error "empty command"
  | .field ids :: args =>
    match splitLast ids with
    | none => .error "empty field"
    | some (front, last) =>
      match evalChain (.msg dot) front with
      | .error e => .error e
      | .ok receiver =>
        if args.isEmpty then evalField receiver last
        else
          match receiver with
          | .time _ =>
            (match evalArgs dot args with
              | .error e => .error e
              | .ok vs => evalCall (some receiver) last vs)
          | _ =>
            (match evalField receiver last with
              | .error e => .error e
              | .ok _ => .error (last ++ " has arguments but cannot be invoked as function"))
  | .ident name :: args =>
    (match evalArgs dot args with
      | .error e => .error e
      | .ok vs => evalCall none name vs)
  | .dot :: args =>
    if args.isEmpty then .ok (.msg dot) else .error "can't give argument to non-function ."
  | .str s :: args =>
    if args.isEmpty then .ok (.str s) else .error "can't give argument to non-function"
  | .chain _ _ :: _ => .error "unmodelled: chain"

/-- What an execution wrote to its buffer and the error that stopped it. -/
structure Rendered where
  written : GoString
  err : Option GoString
  deriving DecidableEq, Repr

/-- The function `isTrue` of the executor: a string is true when it is not
empty, a struct always. -/
def isTrue : Value → Bool
  | .str s => !s.data.isEmpty
  | .time _ => true
  | .msg _ => true

mutual
/-- The method `walk` of the executor on a node. -/
def walk (dot : message) : Node → Rendered
  | .text s => { written := s, err := none }
  | .action pipe =>
    match evalCommand dot pipe with
    | .error e => { written := "", err := some e }
    | .ok (.str s) => { written := s, err := none }
    | .ok _ => { written := "", err := some "unmodelled: printing a struct" }
  | .ifNode pipe list elseList =>
    match evalCommand dot pipe with
    | .error e => { written := "", err := some e }
    | .ok v =>
      if isTrue v then walkList dot list
      else
        match elseList with
        | none => { written := "", err := none }
        | some el => walkList dot el
/-- The method `walk` of the executor on a list node: the nodes in order, up
to the first error. -/
def walkList (dot : message) : List Node → Rendered
  | [] => { written := "", err := none }
  | n :: ns =>
    match walk dot n with
    | { written := w, err := some e } => { written := w, err := some e }
    | { written := w, err := none } =>
      { written := w ++ (walkList dot ns).written, err := (walkList dot ns).err }
end

/-- `Template.Execute(buf, msg)`: what is written to the buffer and the
error. -/
def Template.Execute (t : Template) (msg : message) : Rendered := walkList msg t.Root

/-! ## The logger -/

/-- Template `XSmallTpl`:
`{{ if .Prefix }}{{ printf "%s: " .Prefix }}{{ end }}{{ .Message }}`. -/
def XSmallTpl : GoString :=
  "\x7b\x7b if .Prefix \x7d\x7d\x7b\x7b printf \"%s: \" .Prefix \x7d\x7d\x7b\x7b end \x7d\x7d\x7b\x7b .Message \x7d\x7d"

/-- Template `SmallTpl`:
`{{ printf "[%-5s] " .Level }}{{ if .Prefix }}{{ printf "%s: " .Prefix }}{{ end }}{{ .Message }}`. -/
def SmallTpl : GoString :=
  "\x7b\x7b printf \"[%-5s] \" .Level \x7d\x7d\x7b\x7b if .Prefix \x7d\x7d\x7b\x7b printf \"%s: \" .Prefix \x7d\x7d\x7b\x7b end \x7d\x7d\x7b\x7b .Message \x7d\x7d"

/-- Template `MediumTpl`:
`{{.TS.Format "2006/01/02 15:04:05" }} {{ printf "[%-5s] " .Level }}{{ if .Prefix }}{{ printf "%s: " .Prefix }}{{ end }}{{ .Message }}`. -/
def MediumTpl : GoString :=
  "\x7b\x7b.TS.Format \"2006/01/02 15:04:05\" \x7d\x7d \x7b\x7b printf \"[%-5s] \" .Level \x7d\x7d\x7b\x7b if .Prefix \x7d\x7d\x7b\x7b printf \"%s: \" .Prefix \x7d\x7d\x7b\x7b end \x7d\x7d\x7b\x7b .Message \x7d\x7d"

/-- Template `LargeTpl`:
`{{.TS.Format "2006/01/02 15:04:05.000" }} {{ printf "[%-5s] " .Level }}{{ printf "{%s} " .Caller }}{{ if .Prefix }}{{ printf "%s: " .Prefix }}{{ end }}{{ .Message }}`. -/
def LargeTpl : GoString :=
  "\x7b\x7b.TS.Format \"2006/01/02 15:04:05.000\" \x7d\x7d \x7b\x7b printf \"[%-5s] \" .Level \x7d\x7d\x7b\x7b printf \"\x7b%s\x7d \" .Caller \x7d\x7d\x7b\x7b if .Prefix \x7d\x7d\x7b\x7b printf \"%s: \" .Prefix \x7d\x7d\x7b\x7b end \x7d\x7d\x7b\x7b .Message \x7d\x7d"

/-- The type `prefix` (the word is reserved in Lean, hence the capital). -/
structure Prefix where
  value : GoString
  deriving DecidableEq, Repr

/-- The method `prefix.String`. -/
def Prefix.String (p : Prefix) : GoString := p.value

/-- The method `prefix.Set`: the returned error and the prefix afterwards. -/
def Prefix.Set (p : Prefix) (value : GoString) : Option GoString × Prefix :=
  (none, { p with value := value })

/-- The type `tpl`: the current template and its compiled engine, `none` for
the nil pointer. -/
structure tpl where
  value : GoString
  engine : Option Template

/-- The method `tpl.String`. -/
def tpl.String (t : tpl) : GoString := t.value

/-- The handling of standard template names at the head of `tpl.Set`. -/
def tpl.alias (value : GoString) : GoString :=
  if value = "XSmallTpl" ∨ value = "xs" then XSmallTpl
  else if value = "SmallTpl" ∨ value = "sm" then SmallTpl
  else if value = "MediumTpl" ∨ value = "md" then MediumTpl
  else if value = "LargeTpl" ∨ value = "lg" then LargeTpl
  else value

/-- The method `tpl.Set`: set the template and initialise the engine; the
returned error and the `tpl` afterwards. -/
def tpl.Set (t : tpl) (value : GoString) : Option GoString × tpl :=
  let value := tpl.alias value
  match Parse value with
  | .error err => (some (Sprintf "afs: set template: %v" [.str err]), t)
  | .ok engine => (none, { t with value := value, engine := some engine })

/-- An `io.Writer` as the logger sees it: the text it has accepted so far, and
how it answers a `Write`: `none` accepts everything and returns no error (a
`bytes.Buffer`); `some (n, e)` accepts `n` runes at most and returns `e`. -/
structure Writer where
  written : GoString
  fault : Option (Nat × Option GoString)
  deriving DecidableEq, Repr

/-- The method `Write` of a writer: the writer afterwards, the count `n` and
the error. -/
def Writer.Write (w : Writer) (p : GoString) : Writer × Nat × Option GoString :=
  match w.fault with
  | none => ({ w with written := w.written ++ p }, p.data.length, none)
  | some (n, e) =>
    ({ w with written := w.written ++ String.mk (p.data.take n) }, min n p.data.length, e)

/-- `bytes.Buffer.WriteTo(w)` for a buffer that holds `buf`: one `Write` if
the buffer is not empty; a short count without error is `io.ErrShortWrite`. -/
def writeTo (buf : GoString) (w : Writer) : Writer × Option GoString :=
  if buf.data.length > 0 then
    match w.Write buf with
    | (w1, _, some e) => (w1, some e)
    | (w1, m, none) => if m ≠ buf.data.length then (w1, some "short write") else (w1, none)
  else (w, none)

/-- The standard error stream `os.Stderr`. -/
def Stderr : Writer := { written := "", fault := none }

/-- The type `lgr`, the main type.  The clock `now` is read once in each
`Output`; its reading is an argument of that call. -/
structure lgr where
  out : Option Writer
  Level : level
  Prefix : Prefix
  Template : tpl
  skip : Int

/-- What a call of `Output` gets from its surroundings: the order of the map
iteration in `level.Set`, the answer of `runtime.Caller(l.skip)` (file and
line, `none` when not ok) and the reading of the clock `l.now()`. -/
structure Call where
  order : KeyOrder
  frame : Option (GoString × Int)
  now : Time

/-- The method `SetOut`: set the current out. -/
def lgr.SetOut (l : lgr) (w : Option Writer) : lgr := { l with out := w }

/-- The method `SetPrefix`: set the current prefix. -/
def lgr.SetPrefix (l : lgr) (p : GoString) : lgr := { l with Prefix := (l.Prefix.Set p).2 }

/-- The method `SetLevel`: set the current level. -/
def lgr.SetLevel (l : lgr) (o : KeyOrder) (lvl : GoString) : lgr :=
  { l with Level := (l.Level.Set o lvl).2 }

/-- The method `SetTpl`: set the current template. -/
def lgr.SetTpl (l : lgr) (t : GoString) : lgr := { l with Template := (l.Template.Set t).2 }

/-- The function `New`. -/
def New (o : KeyOrder) : lgr :=
  let res : lgr :=
    { out := none, Level := { value := "" }, Prefix := { value := "" },
      Template := { value := "", engine := none }, skip := 2 }
  ((res.SetOut (some Stderr)).SetTpl LargeTpl).SetLevel o DEBUG

/-- The caller information `ci` that `Output` computes first. -/
def callerInfo (frame : Option (GoString × Int)) : GoString :=
  match frame with
  | some (file, line) =>
    Sprintf "%s/%s:%d" [.str (pathBase (pathSplit file).1), .str (pathSplit file).2, .int line]
  | none => Sprintf "%s:%s" [.str "???", .str "???"]

/-- The record `msg` that `Output` builds for an accepted message. -/
def lgr.msg (l : lgr) (c : Call) (lvl : GoString) (s : GoString) : message :=
  { TS := c.now, Level := lvl, Caller := callerInfo c.frame, Prefix := l.Prefix.value,
    Message := trimNewline s }

/-- The method `Output`: send a message to the logger out.  The result is the
returned error and the logger afterwards; `none` stands for a run-time panic
(a nil engine or a nil writer is dereferenced). -/
def lgr.Output (l : lgr) (c : Call) (lvl : GoString) (s : GoString) :
    Option (Option GoString × lgr) :=
  if !l.Level.allowed c.order lvl then
    some (some (Sprintf "lgr: level [%-5s] not allowed, because current level is [%-5s]"
      [.str lvl, .str l.Level.String]), l)
  else
    let msg := l.msg c lvl s
    match l.Template.engine with
    | none => none
    | some engine =>
      match engine.Execute msg with
      | { written := _, err := some err } => some (some (Sprintf "lgr: %v" [.str err]), l)
      | { written := buf, err := none } =>
        match l.out with
        | none => none
        | some w => some ((writeTo (buf ++ "\n") w).2, { l with out := some (writeTo (buf ++ "\n") w).1 })

/-- The methods `Debug`, `Info`, `Warn`, `Error`: format the message with
`fmt.Sprintf(format, v...)`, output it with the given level and drop the
error.  The result is the logger afterwards; `none` stands for a run-time
panic of `Output`, and for a format outside the model of `fmt`. -/
def lgr.logAt (lvl : GoString) (l : lgr) (c : Call) (format : GoString) (v : List Arg) :
    Option lgr :=
  match Sprintf? format v with
  | some text => (l.Output c lvl text).map Prod.snd
  | none => none

/-- The method `Debug`. -/
def lgr.Debug (l : lgr) (c : Call) (format : GoString) (v : List Arg) : Option lgr :=
  lgr.logAt DEBUG l c format v
/-- The method `Info`. -/
def lgr.Info (l : lgr) (c : Call) (format : GoString) (v : List Arg) : Option lgr :=
  lgr.logAt INFO l c format v
/-- The method `Warn`. -/
def lgr.Warn (l : lgr) (c : Call) (format : GoString) (v : List Arg) : Option lgr :=
  lgr.logAt WARN l c format v
/-- The method `Error`. -/
def lgr.Error (l : lgr) (c : Call) (format : GoString) (v : List Arg) : Option lgr :=
  lgr.logAt ERROR l c format v

/-- The function `newStd` that builds the shared logger `Std`. -/
def newStd (o1 o2 : KeyOrder) : lgr :=
  let l := New o1
  let l := { l with skip := 3 }
  (l.SetTpl SmallTpl).SetLevel o2 INFO

/-! ## Inputs of the tests -/

/-- The clock `nowTest` of the tests: 2019-03-02 00:20:15. -/
def nowTest : Time :=
  { year := 2019, month := 3, day := 2, hour := 0, minute := 20, second := 15, nanosecond := 0 }

/-- A call as in the tests: the keys visited as listed, a caller frame found,
the clock `nowTest`. -/
def testCall : Call :=
  { order := KeyOrder.listed, frame := some ("/go/src/lgr/lgr_test.go", 29), now := nowTest }

/-- The logger of `TestLogger`: `New().SetOut(out)` with an empty buffer. -/
def testLogger : lgr := (New KeyOrder.listed).SetOut (some { written := "", fault := none })

/-- The four calls of the test `Levels`, one after the other: `Debug(m)`,
`Info(m)`, `Warn(m)`, `Error(m)`, the text `m` being the format and no operand
following it. -/
def lgr.fourLevels (l : lgr) (c1 c2 c3 c4 : Call) (m : GoString) : Option lgr :=
  (((l.Debug c1 m []).bind fun l1 => l1.Info c2 m []).bind fun l2 => l2.Warn c3 m []).bind
    fun l3 => l3.Error c4 m []

/-- The set-up of the test `Levels` on a logger: the medium preset, the empty
prefix, level `DEBUG`, and an empty buffer as out. -/
def lgr.forLevels (l : lgr) (o : KeyOrder) : lgr :=
  (((l.SetTpl MediumTpl).SetPrefix "").SetLevel o DEBUG).SetOut
    (some { written := "", fault := none })

/-! ## Notions of the specification -/

/-- The spec's "equal ignoring letter case": the same runes once upper-case
letters are mapped to lower case. -/
def equalIgnoringCase (a b : GoString) : Prop :=
  a.data.map Char.toLower = b.data.map Char.toLower

instance (a b : GoString) : Decidable (equalIgnoringCase a b) :=
  inferInstanceAs (Decidable (a.data.map Char.toLower = b.data.map Char.toLower))

/-- An upper-case ASCII letter other than `K` and `S`, the two letters whose
folding orbit leaves ASCII. -/
def plainUpper (u : Char) : Prop :=
  65 ≤ u.toNat ∧ u.toNat ≤ 90 ∧ u.toNat ≠ 75 ∧ u.toNat ≠ 83

/-- The spec's "padded on the right with spaces to width `n`". -/
def padRight (n : Nat) (s : GoString) : GoString :=
  String.mk (s.data ++ List.replicate (n - s.data.length) ' ')

/-- The spec's "`p: ` if the prefix is non-empty, nothing if it is empty". -/
def prefixPart (p : GoString) : GoString := if p = "" then "" else p ++ ": "

/-- The spec's "setting the alias `a` leaves the template in the same state as
setting the preset text `P`": the same result from every state, no error, the
preset as stored text, and an engine that renders every message alike. -/
def aliasAgrees (a P : GoString) : Prop :=
  ∀ t : tpl, t.Set a = t.Set P ∧ (t.Set a).1 = none ∧ (t.Set a).2.value = P ∧
    ∃ e1 e2, (t.Set a).2.engine = some e1 ∧ (t.Set P).2.engine = some e2 ∧
      ∀ m : message, e1.Execute m = e2.Execute m

/-- The spec's time stamp to the second, `2006/01/02 15:04:05`: year, month,
day, hour, minute and second in decimal, zero-padded to 4, 2, 2, 2, 2, 2. -/
def stampSeconds (t : Time) : GoString :=
  String.mk (zeroPad 4 t.year ++ '/' :: zeroPad 2 t.month ++ '/' :: zeroPad 2 t.day ++ ' ' ::
    zeroPad 2 t.hour ++ ':' :: zeroPad 2 t.minute ++ ':' :: zeroPad 2 t.second)

/-- The spec's time stamp to the millisecond, `2006/01/02 15:04:05.000`: the
stamp to the second, a dot and the first three digits of the nanoseconds. -/
def stampMillis (t : Time) : GoString :=
  stampSeconds t ++ String.mk ('.' :: fracDigits 3 t.nanosecond)

/-- The names that the switch of `tpl.Set` handles. -/
def aliasNames : List GoString :=
  ["XSmallTpl", "xs", "SmallTpl", "sm", "MediumTpl", "md", "LargeTpl", "lg"]

/-- The spec's "the string is replaced by a preset body" before compiling. -/
def replacedByPreset (a : GoString) : Prop :=
  tpl.alias a ≠ a ∧ tpl.alias a ∈ [XSmallTpl, SmallTpl, MediumTpl, LargeTpl]

/-- The loggers that a program can reach: `New()` and `Std`, and from a logger
every call of a setter, of `Set` on one of its three components, and of
`Output` that returns. -/
inductive Reachable : lgr → Prop where
  | new (o : KeyOrder) : Reachable (New o)
  | std (o1 o2 : KeyOrder) : Reachable (newStd o1 o2)
  | setOut (l : lgr) (w : Option Writer) : Reachable l → Reachable (l.SetOut w)
  | setPrefix (l : lgr) (p : GoString) : Reachable l → Reachable (l.SetPrefix p)
  | setLevel (l : lgr) (o : KeyOrder) (v : GoString) : Reachable l → Reachable (l.SetLevel o v)
  | setTpl (l : lgr) (text : GoString) : Reachable l → Reachable (l.SetTpl text)
  | levelSet (l : lgr) (o : KeyOrder) (v : GoString) :
      Reachable l → Reachable { l with Level := (l.Level.Set o v).2 }
  | prefixSet (l : lgr) (p : GoString) :
      Reachable l → Reachable { l with Prefix := (l.Prefix.Set p).2 }
  | templateSet (l : lgr) (text : GoString) :
      Reachable l → Reachable { l with Template := (l.Template.Set text).2 }
  | output (l : lgr) (c : Call) (lvl s : GoString) (ret : Option GoString) (l1 : lgr) :
      Reachable l → l.Output c lvl s = some (ret, l1) → Reachable l1

/-- The four lines of claim C13 for a clock `t` and a text `m`: the stamp of
`t` to the second, the level in brackets padded to 5 and `m`, each line ended
by a line feed, for `DEBUG`, `INFO`, `WARN`, `ERROR` in this order. -/
def fourLines (t : Time) (m : GoString) : GoString :=
  stampSeconds t ++ " [DEBUG] " ++ m ++ "\n"
    ++ stampSeconds t ++ " [INFO ] " ++ m ++ "\n"
    ++ stampSeconds t ++ " [WARN ] " ++ m ++ "\n"
    ++ stampSeconds t ++ " [ERROR] " ++ m ++ "\n"

/-- The name of a field as it stands in a template after the dot: ASCII
letters, digits and underscores, not empty and not starting with a digit. -/
def fieldName (F : GoString) : Prop :=
  F.data ≠ [] ∧ (∀ c ∈ F.data, isAlphaNumeric c = true) ∧ startsWithDigit F.data = false

/-- The names of the fields of the record `message`. -/
def messageFields : List GoString := ["TS", "Level", "Caller", "Prefix", "Message"]

/-! ## Runes and case folding -/

theorem char_eq_of_toNat (c d : Char) (h : c.toNat = d.toNat) : c = d := by
  apply Char.ext
  apply UInt32.ext
  exact h

theorem char_eq_iff (c d : Char) : c = d ↔ c.toNat = d.toNat :=
  ⟨fun h => by rw [h], char_eq_of_toNat c d⟩

theorem toNat_ofNat_small (n : Nat) (h : n < 0xd800) : (Char.ofNat n).toNat = n := by
  unfold Char.ofNat
  have : n.isValidChar := Or.inl h
  simp [this, Char.toNat, Char.ofNatAux, UInt32.toNat]

theorem toLower_toNat (c : Char) :
    c.toLower.toNat = if 65 ≤ c.toNat ∧ c.toNat ≤ 90 then c.toNat + 32 else c.toNat := by
  have h : c.toLower = if 65 ≤ c.toNat ∧ c.toNat ≤ 90 then Char.ofNat (c.toNat + 32) else c := rfl
  rw [h]
  split
  · exact toNat_ofNat_small _ (by omega)
  · rfl

theorem simpleFold_toNat (r : Char) :
    (simpleFold r).toNat =
      if r.toNat = 107 then 0x212A else if r.toNat = 115 then 0x17F
      else if r.toNat = 0x212A then 75 else if r.toNat = 0x17F then 83
      else if 65 ≤ r.toNat ∧ r.toNat ≤ 90 then r.toNat + 32
      else if 97 ≤ r.toNat ∧ r.toNat ≤ 122 then r.toNat - 32 else r.toNat := by
  unfold simpleFold
  simp only [char_eq_iff]
  have e1 : ('k' : Char).toNat = 107 := rfl
  have e2 : ('s' : Char).toNat = 115 := rfl
  have e3 : (Char.ofNat 0x212A).toNat = 0x212A := rfl
  have e4 : (Char.ofNat 0x17F).toNat = 0x17F := rfl
  simp only [e1, e2, e3, e4]
  split_ifs <;> first | rfl | (apply toNat_ofNat_small; omega)

/-- Against a plain upper-case letter, one round of `EqualFold` accepts exactly
the letter itself and its lower-case form. -/
theorem equalFoldRune_iff (c u : Char) (hu : plainUpper u) :
    equalFoldRune c u = true ↔ c.toLower = u.toLower := by
  obtain ⟨h1, h2, h3, h4⟩ := hu
  rw [char_eq_iff c.toLower, toLower_toNat, toLower_toNat]
  unfold equalFoldRune
  simp only [char_eq_iff]
  by_cases hcu : u.toNat = c.toNat
  · simp [hcu]
  · simp only [hcu, if_false]
    by_cases hlt : u.toNat < c.toNat
    · simp only [hlt, if_true]
      by_cases h128 : c.toNat < 128
      · simp only [h128, if_true, decide_eq_true_eq]
        constructor
        · intro h; split_ifs <;> omega
        · intro h; split_ifs at h <;> omega
      · simp only [h128, if_false, decide_eq_true_eq]
        have hf : foldUpTo 3 (simpleFold u) u c = u := by
          have s1 : (simpleFold u).toNat = u.toNat + 32 := by
            rw [simpleFold_toNat]; split_ifs <;> omega
          have s2 : (simpleFold (simpleFold u)).toNat = u.toNat := by
            rw [simpleFold_toNat, s1]; split_ifs <;> omega
          have s3 : simpleFold (simpleFold u) = u := char_eq_of_toNat _ _ s2
          have n1 : simpleFold u ≠ u := by
            intro h; rw [h] at s1; omega
          simp [foldUpTo, n1, s1, s3]
          omega
        rw [hf]
        constructor
        · intro h; omega
        · intro h; split_ifs at h <;> omega
    · simp only [hlt, if_false]
      have : u.toNat < 128 := by omega
      simp only [this, if_true, decide_eq_true_eq]
      constructor
      · intro h; omega
      · intro h; split_ifs at h <;> omega

theorem equalFoldRunes_iff (n : List Char) (hn : ∀ u ∈ n, plainUpper u) (v : List Char) :
    equalFoldRunes v n = true ↔ v.map Char.toLower = n.map Char.toLower := by
  induction n generalizing v with
  | nil => cases v <;> simp [equalFoldRunes]
  | cons u n ih =>
    cases v with
    | nil => simp [equalFoldRunes]
    | cons c v =>
      have hu := hn u (List.mem_cons_self _ _)
      have ht := ih (fun x hx => hn x (List.mem_cons_of_mem _ hx)) v
      simp only [equalFoldRunes, List.map_cons, List.cons.injEq]
      rw [← equalFoldRune_iff c u hu, ← ht]
      cases equalFoldRune c u <;> simp

/-! ## Levels -/

theorem levelKeys_plainUpper : ∀ k ∈ levelKeys, ∀ u ∈ k.data, plainUpper u := by
  unfold plainUpper; decide

theorem EqualFold_key_iff (v k : GoString) (hk : k ∈ levelKeys) :
    EqualFold v k = true ↔ equalIgnoringCase v k :=
  equalFoldRunes_iff k.data (levelKeys_plainUpper k hk) v.data

theorem levelKeys_distinct :
    ∀ k1 ∈ levelKeys, ∀ k2 ∈ levelKeys, equalIgnoringCase k1 k2 → k1 = k2 := by
  decide

/-- The scan of `level.Set` finds `k` exactly when `k` is the key that equals
the value ignoring case, whatever the order of the keys. -/
theorem scan_iff (v k : GoString) (ks : List GoString) (hks : ∀ x ∈ ks, x ∈ levelKeys) :
    level.scan v ks = some k ↔ k ∈ ks ∧ equalIgnoringCase v k := by
  induction ks with
  | nil => simp [level.scan]
  | cons k0 ks ih =>
    have h0 := hks k0 (List.mem_cons_self _ _)
    have ih1 := ih (fun x hx => hks x (List.mem_cons_of_mem _ hx))
    unfold level.scan
    by_cases hm : EqualFold v k0 = true
    · simp only [hm, if_true, Option.some.injEq, List.mem_cons]
      have hm1 := (EqualFold_key_iff v k0 h0).1 hm
      constructor
      · intro h; subst h; exact ⟨Or.inl rfl, hm1⟩
      · rintro ⟨hmem, heq⟩
        have hk : k ∈ levelKeys := by
          rcases hmem with h | h
          · rw [h]; exact h0
          · exact hks k (List.mem_cons_of_mem _ h)
        apply levelKeys_distinct k0 h0 k hk
        unfold equalIgnoringCase at *
        rw [← hm1, heq]
    · simp only [hm, List.mem_cons]
      rw [if_neg (by simp), ih1]
      constructor
      · rintro ⟨a, b⟩; exact ⟨Or.inr a, b⟩
      · rintro ⟨a | a, b⟩
        · subst a; exact absurd ((EqualFold_key_iff v k h0).2 b) hm
        · exact ⟨a, b⟩

theorem scan_order_iff (o : KeyOrder) (v k : GoString) :
    level.scan v o.val = some k ↔ k ∈ levelKeys ∧ equalIgnoringCase v k := by
  rw [scan_iff v k o.val (fun x hx => (o.property.mem_iff).1 hx), o.property.mem_iff]

theorem scan_order_none (o : KeyOrder) (v : GoString) :
    level.scan v o.val = none ↔ ∀ k ∈ levelKeys, ¬ equalIgnoringCase v k := by
  constructor
  · intro h k hk he
    have := (scan_order_iff o v k).2 ⟨hk, he⟩
    rw [h] at this
    exact Option.noConfusion this
  · intro h
    cases hs : level.scan v o.val with
    | none => rfl
    | some k => exact absurd ((scan_order_iff o v k).1 hs).2 (h k ((scan_order_iff o v k).1 hs).1)

theorem Sprintf_set_level (v : GoString) :
    Sprintf "lgr: set level: value %s is unknown" [.str v]
      = "lgr: set level: value " ++ v ++ " is unknown" := by
  apply String.ext
  simp [Sprintf, Sprintf?, doPrintf, printVerb, pad, finishPrintf]

/-- What `level.Set` does, in the words of the spec. -/
theorem level_Set_eq (o : KeyOrder) (l : level) (v : GoString) :
    (∀ k ∈ levelKeys, equalIgnoringCase v k → level.Set o l v = (none, { value := k })) ∧
    ((∀ k ∈ levelKeys, ¬ equalIgnoringCase v k) →
      level.Set o l v = (some ("lgr: set level: value " ++ v ++ " is unknown"), l)) := by
  constructor
  · intro k hk he
    have := (scan_order_iff o v k).2 ⟨hk, he⟩
    simp [level.Set, this]
  · intro h
    have := (scan_order_none o v).2 h
    simp [level.Set, this, Sprintf_set_level]

/-- The level filter in the words of the spec. -/
theorem allowed_iff (o : KeyOrder) (l : level) (c : GoString) :
    level.allowed o l c = true
      ↔ ∃ k ∈ levelKeys, equalIgnoringCase c k ∧ levels k ≥ levels l.value := by
  unfold level.allowed
  dsimp only
  by_cases h : ∃ k ∈ levelKeys, equalIgnoringCase c k
  · obtain ⟨k, hk, he⟩ := h
    rw [(level_Set_eq o { value := "" } c).1 k hk he]
    simp only [decide_eq_true_eq]
    constructor
    · intro hp; exact ⟨k, hk, he, hp⟩
    · rintro ⟨k1, hk1, he1, hp⟩
      have : k1 = k := by
        apply levelKeys_distinct k1 hk1 k hk
        unfold equalIgnoringCase at *
        rw [← he1, he]
      rw [← this]; exact hp
  · have hn : ∀ k ∈ levelKeys, ¬ equalIgnoringCase c k := fun k hk he => h ⟨k, hk, he⟩
    rw [(level_Set_eq o { value := "" } c).2 hn]
    simp only [Bool.false_eq_true, false_iff]
    rintro ⟨k, hk, he, _⟩
    exact hn k hk he

/-- C1: for every string `c` and every current level `cur`, `allowed` holds
exactly when `c` equals some level name `N` ignoring letter case and the
priority of `N` is at least that of `cur`, with the priorities DEBUG = 0,
INFO = 1, WARN = 2, ERROR = 3; in particular WARN and INFO pass at INFO,
DEBUG does not, and `unknown` passes at no level. -/
theorem allowed_iff_priority :
    (levels DEBUG = 0 ∧ levels INFO = 1 ∧ levels WARN = 2 ∧ levels ERROR = 3) ∧
    (∀ (o : KeyOrder) (cur c : GoString),
      level.allowed o { value := cur } c = true
        ↔ ∃ N ∈ levelKeys, equalIgnoringCase c N ∧ levels N ≥ levels cur) ∧
    (∀ o : KeyOrder, level.allowed o { value := INFO } WARN = true
      ∧ level.allowed o { value := INFO } DEBUG = false
      ∧ level.allowed o { value := INFO } INFO = true) ∧
    (∀ (o : KeyOrder) (cur : GoString), level.allowed o { value := cur } "unknown" = false) := by
  refine ⟨by decide, fun o cur c => allowed_iff o _ c, fun o => ⟨?_, ?_, ?_⟩, fun o cur => ?_⟩
  · exact (allowed_iff o _ _).2 ⟨WARN, by decide, by decide, by decide⟩
  · rw [← Bool.not_eq_true, allowed_iff]
    rintro ⟨k, hk, he, hp⟩
    revert k
    decide
  · exact (allowed_iff o _ _).2 ⟨INFO, by decide, by decide, by decide⟩
  · rw [← Bool.not_eq_true, allowed_iff]
    rintro ⟨k, hk, he, -⟩
    revert k
    decide

/-- C2: for each level name `N` and every string `v` equal to `N` ignoring
letter case, `level.Set(v)` returns no error and afterwards `String()` is the
canonical name `N`, the same level as after `Set(N)`. -/
theorem level_Set_canonical (o : KeyOrder) (l : level) (N v : GoString)
    (hN : N ∈ levelKeys) (hv : equalIgnoringCase v N) :
    (level.Set o l v).1 = none ∧ (level.Set o l v).2.String = N
      ∧ level.Set o l v = level.Set o l N := by
  have h1 := (level_Set_eq o l v).1 N hN hv
  have h2 := (level_Set_eq o l N).1 N hN rfl
  rw [h1, h2]
  exact ⟨rfl, rfl, rfl⟩

theorem level_Set_canonical_witness :
    (DEBUG ∈ levelKeys ∧ equalIgnoringCase "DeBuG" DEBUG) ∧
    ((level.Set KeyOrder.listed { value := INFO } "DeBuG").1 = none
      ∧ (level.Set KeyOrder.listed { value := INFO } "DeBuG").2.String = DEBUG
      ∧ level.Set KeyOrder.listed { value := INFO } "DeBuG"
          = level.Set KeyOrder.listed { value := INFO } DEBUG) :=
  ⟨by decide, level_Set_canonical KeyOrder.listed { value := INFO } DEBUG "DeBuG"
    (by decide) (by decide)⟩

/-- C3: for every string `v` that matches none of the four level names
ignoring letter case, `level.Set(v)` returns the error
`lgr: set level: value <v> is unknown` and leaves the stored level as it was. -/
theorem level_Set_unknown (o : KeyOrder) (l : level) (v : GoString)
    (hv : ∀ N ∈ levelKeys, ¬ equalIgnoringCase v N) :
    level.Set o l v = (some ("lgr: set level: value " ++ v ++ " is unknown"), l) :=
  (level_Set_eq o l v).2 hv

theorem level_Set_unknown_witness :
    (∀ N ∈ levelKeys, ¬ equalIgnoringCase "unknown" N) ∧
    level.Set KeyOrder.listed { value := WARN } "unknown"
      = (some "lgr: set level: value unknown is unknown", { value := WARN }) :=
  ⟨by decide, level_Set_unknown KeyOrder.listed { value := WARN } "unknown" (by decide)⟩

/-! ## Templates -/

set_option maxRecDepth 100000 in
theorem Parse_message :
    Parse "\x7b\x7b .Message \x7d\x7d" = .ok ⟨[.action [.field ["Message"]]]⟩ := by rfl

set_option maxRecDepth 100000 in
theorem Parse_broken_field :
    Parse "\x7b\x7b .Message.BROKEN \x7d\x7d"
      = .ok ⟨[.action [.field ["Message", "BROKEN"]]]⟩ := by rfl

set_option maxRecDepth 100000 in
theorem Parse_unclosed : Parse "\x7b\x7b .Message " = .error "unclosed action" := by rfl

set_option maxRecDepth 100000 in
theorem Parse_XSmallTpl :
    Parse XSmallTpl = .ok ⟨[
      .ifNode [.field ["Prefix"]]
        [.action [.ident "printf", .str "%s: ", .field ["Prefix"]]] none,
      .action [.field ["Message"]]]⟩ := by rfl

set_option maxRecDepth 100000 in
theorem Parse_SmallTpl :
    Parse SmallTpl = .ok ⟨[
      .action [.ident "printf", .str "[%-5s] ", .field ["Level"]],
      .ifNode [.field ["Prefix"]]
        [.action [.ident "printf", .str "%s: ", .field ["Prefix"]]] none,
      .action [.field ["Message"]]]⟩ := by rfl

set_option maxRecDepth 100000 in
theorem Parse_MediumTpl :
    Parse MediumTpl = .ok ⟨[
      .action [.field ["TS", "Format"], .str "2006/01/02 15:04:05"],
      .text " ",
      .action [.ident "printf", .str "[%-5s] ", .field ["Level"]],
      .ifNode [.field ["Prefix"]]
        [.action [.ident "printf", .str "%s: ", .field ["Prefix"]]] none,
      .action [.field ["Message"]]]⟩ := by rfl

set_option maxRecDepth 100000 in
theorem Parse_LargeTpl :
    Parse LargeTpl = .ok ⟨[
      .action [.field ["TS", "Format"], .str "2006/01/02 15:04:05.000"],
      .text " ",
      .action [.ident "printf", .str "[%-5s] ", .field ["Level"]],
      .action [.ident "printf", .str "\x7b%s\x7d ", .field ["Caller"]],
      .ifNode [.field ["Prefix"]]
        [.action [.ident "printf", .str "%s: ", .field ["Prefix"]]] none,
      .action [.field ["Message"]]]⟩ := by rfl

set_option maxRecDepth 100000 in
theorem alias_names_compile :
    ∀ a ∈ ["XSmallTpl", "xs", "SmallTpl", "sm", "MediumTpl", "md", "LargeTpl", "lg"],
      (Parse a).toBool = true := by
  decide

/-- A text that does not compile is no alias, so `tpl.Set` compiles it as it
is. -/
theorem alias_of_failing (text err : GoString) (h : Parse text = .error err) :
    tpl.alias text = text := by
  have hb : (Parse text).toBool = false := by rw [h]; rfl
  have hn : text ∉ ["XSmallTpl", "xs", "SmallTpl", "sm", "MediumTpl", "md", "LargeTpl", "lg"] := by
    intro hmem
    rw [alias_names_compile text hmem] at hb
    exact Bool.noConfusion hb
  simp only [List.mem_cons, List.mem_singleton, List.not_mem_nil, or_false, not_or] at hn
  obtain ⟨h1, h2, h3, h4, h5, h6, h7, h8⟩ := hn
  simp [tpl.alias, h1, h2, h3, h4, h5, h6, h7, h8]

theorem tpl_Set_ok (t : tpl) (text : GoString) (e : Template)
    (h : Parse (tpl.alias text) = .ok e) :
    t.Set text = (none, { value := tpl.alias text, engine := some e }) := by
  simp [tpl.Set, h]

theorem tpl_Set_error (t : tpl) (text err : GoString) (h : Parse text = .error err) :
    t.Set text = (some (Sprintf "afs: set template: %v" [.str err]), t) := by
  simp [tpl.Set, alias_of_failing text err h, h]

/-! ## Output -/

theorem Sprintf_wrap (e : GoString) : Sprintf "lgr: %v" [.str e] = "lgr: " ++ e := by
  apply String.ext
  simp [Sprintf, Sprintf?, doPrintf, printVerb, pad, finishPrintf]

/-- What `strings.TrimSuffix(s, "\n")` returns, in the words of the spec: one
trailing line feed is removed if there is one. -/
theorem trimNewline_spec (s : GoString) :
    (∀ s0 : GoString, s = s0 ++ "\n" → trimNewline s = s0) ∧
    ((¬ ∃ s0 : GoString, s = s0 ++ "\n") → trimNewline s = s) := by
  constructor
  · intro s0 h
    subst h
    apply String.ext
    simp [trimNewline]
  · intro h
    unfold trimNewline
    split
    · rename_i hl
      exfalso
      apply h
      refine ⟨String.mk s.data.dropLast, ?_⟩
      apply String.ext
      have hne : s.data ≠ [] := by
        intro h0; rw [h0] at hl; simp at hl
      have := List.dropLast_append_getLast hne
      rw [List.getLast?_eq_getLast _ hne] at hl
      simp only [Option.some.injEq] at hl
      rw [hl] at this
      simp [this]
    · rfl

/-- A rejected level: `Output` returns the error and the logger as it was. -/
theorem Output_not_allowed (l : lgr) (c : Call) (lvl s : GoString)
    (h : level.allowed c.order l.Level lvl = false) :
    ∃ e, l.Output c lvl s = some (some e, l) := by
  simp [lgr.Output, h]

/-- An accepted level with a compiled template and a healthy writer. -/
theorem Output_written (l : lgr) (c : Call) (lvl s buf : GoString) (e : Template) (w : Writer)
    (h : level.allowed c.order l.Level lvl = true) (he : l.Template.engine = some e)
    (hx : e.Execute (l.msg c lvl s) = ⟨buf, none⟩)
    (hw : l.out = some w) (hf : w.fault = none) :
    l.Output c lvl s
      = some (none, { l with out := some ⟨w.written ++ (buf ++ "\n"), none⟩ }) := by
  have hlen : (buf ++ "\n").data.length > 0 := by simp
  simp [lgr.Output, h, he, hx, hw, writeTo, Writer.Write, hf, hlen]

theorem not_allowed_of_spec (o : KeyOrder) (l : level) (lvl : GoString)
    (h : ¬ ∃ N ∈ levelKeys, equalIgnoringCase lvl N ∧ levels N ≥ levels l.value) :
    level.allowed o l lvl = false := by
  rw [← Bool.not_eq_true, allowed_iff]
  exact h

/-- C4: for every logger and every level string that is not allowed at the
current level (no level name of sufficient priority equals it ignoring case),
`Output` returns an error and the logger is as before: nothing is written to
the sink, and level, prefix and template are unchanged. -/
theorem Output_rejected (l : lgr) (c : Call) (lvl s : GoString)
    (h : ¬ ∃ N ∈ levelKeys, equalIgnoringCase lvl N ∧ levels N ≥ levels l.Level.value) :
    ∃ e, l.Output c lvl s = some (some e, l) :=
  Output_not_allowed l c lvl s (not_allowed_of_spec c.order l.Level lvl h)

theorem Output_rejected_witness :
    (¬ ∃ N ∈ levelKeys, equalIgnoringCase "unknown" N
        ∧ levels N ≥ levels testLogger.Level.value) ∧
    ∃ e, testLogger.Output testCall "unknown" "Hello, World!" = some (some e, testLogger) :=
  ⟨by decide, Output_rejected testLogger testCall "unknown" "Hello, World!" (by decide)⟩

/-- C5: a failed template compilation is atomic: for every text that fails to
compile, `tpl.Set` returns an error and leaves the `tpl` (stored text and
engine) as it was, so `Output` after the failed `Set` gives what it gave
before. -/
theorem tpl_Set_failure_atomic (text err : GoString) (h : Parse text = .error err) :
    (∀ t : tpl, ∃ e, t.Set text = (some e, t)) ∧
    (∀ (l : lgr) (c : Call) (lvl s : GoString),
      ({ l with Template := (l.Template.Set text).2 } : lgr).Output c lvl s
        = l.Output c lvl s) := by
  constructor
  · intro t
    exact ⟨_, tpl_Set_error t text err h⟩
  · intro l c lvl s
    rw [tpl_Set_error l.Template text err h]

theorem tpl_Set_failure_atomic_witness :
    Parse "\x7b\x7b .Message " = .error "unclosed action" ∧
    ((∀ t : tpl, ∃ e, t.Set "\x7b\x7b .Message " = (some e, t)) ∧
    (∀ (l : lgr) (c : Call) (lvl s : GoString),
      ({ l with Template := (l.Template.Set "\x7b\x7b .Message ").2 } : lgr).Output c lvl s
        = l.Output c lvl s)) :=
  ⟨Parse_unclosed, tpl_Set_failure_atomic "\x7b\x7b .Message " "unclosed action" Parse_unclosed⟩

theorem aliasAgrees_of (a P : GoString) (e : Template) (ha : tpl.alias a = P)
    (hP : tpl.alias P = P) (he : Parse P = .ok e) : aliasAgrees a P := by
  intro t
  have h1 : t.Set a = (none, { value := P, engine := some e }) := by
    have := tpl_Set_ok t a e (by rw [ha]; exact he)
    rw [ha] at this
    exact this
  have h2 : t.Set P = (none, { value := P, engine := some e }) := by
    have := tpl_Set_ok t P e (by rw [hP]; exact he)
    rw [hP] at this
    exact this
  rw [h1, h2]
  exact ⟨rfl, rfl, rfl, e, e, rfl, rfl, fun _ => rfl⟩

/-- C6: for each alias name, `tpl.Set(alias)` succeeds and leaves the template
in the same state as `tpl.Set` with the full preset text: the preset as stored
text and an engine of the same behaviour on every message. -/
theorem tpl_Set_alias :
    aliasAgrees "XSmallTpl" XSmallTpl ∧ aliasAgrees "xs" XSmallTpl ∧
    aliasAgrees "SmallTpl" SmallTpl ∧ aliasAgrees "sm" SmallTpl ∧
    aliasAgrees "MediumTpl" MediumTpl ∧ aliasAgrees "md" MediumTpl ∧
    aliasAgrees "LargeTpl" LargeTpl ∧ aliasAgrees "lg" LargeTpl :=
  ⟨aliasAgrees_of _ _ _ (by decide) (by decide) Parse_XSmallTpl,
   aliasAgrees_of _ _ _ (by decide) (by decide) Parse_XSmallTpl,
   aliasAgrees_of _ _ _ (by decide) (by decide) Parse_SmallTpl,
   aliasAgrees_of _ _ _ (by decide) (by decide) Parse_SmallTpl,
   aliasAgrees_of _ _ _ (by decide) (by decide) Parse_MediumTpl,
   aliasAgrees_of _ _ _ (by decide) (by decide) Parse_MediumTpl,
   aliasAgrees_of _ _ _ (by decide) (by decide) Parse_LargeTpl,
   aliasAgrees_of _ _ _ (by decide) (by decide) Parse_LargeTpl⟩

theorem allowed_of_spec (o : KeyOrder) (l : level) (lvl : GoString)
    (h : ∃ N ∈ levelKeys, equalIgnoringCase lvl N ∧ levels N ≥ levels l.value) :
    level.allowed o l lvl = true :=
  (allowed_iff o l lvl).2 h

theorem Execute_message (m : message) :
    Template.Execute ⟨[.action [.field ["Message"]]]⟩ m = ⟨m.Message, none⟩ := by
  simp [Template.Execute, walkList, walk, evalCommand, splitLast, evalChain, evalField]

theorem Execute_broken_field (m : message) :
    Template.Execute ⟨[.action [.field ["Message", "BROKEN"]]]⟩ m
      = ⟨"", some "can't evaluate field BROKEN in type string"⟩ := by
  simp [Template.Execute, walkList, walk, evalCommand, splitLast, evalChain, evalField]

theorem Execute_small (m : message) :
    Template.Execute ⟨[
      .action [.ident "printf", .str "[%-5s] ", .field ["Level"]],
      .ifNode [.field ["Prefix"]]
        [.action [.ident "printf", .str "%s: ", .field ["Prefix"]]] none,
      .action [.field ["Message"]]]⟩ m
    = ⟨"[" ++ padRight 5 m.Level ++ "] " ++ prefixPart m.Prefix ++ m.Message, none⟩ := by
  by_cases hp : m.Prefix = ""
  · simp [Template.Execute, walkList, walk, evalCommand, splitLast, evalChain, evalField, evalArgs,
      Except.map, evalArg, evalCall, printfArgs, Sprintf?, doPrintf, printVerb, pad, finishPrintf,
      isTrue, hp, padRight, prefixPart]
    apply String.ext
    simp
  · have hd : m.Prefix.data ≠ [] := fun h => hp (String.ext h)
    simp [Template.Execute, walkList, walk, evalCommand, splitLast, evalChain, evalField, evalArgs,
      Except.map, evalArg, evalCall, printfArgs, Sprintf?, doPrintf, printVerb, pad, finishPrintf,
      isTrue, hp, hd, padRight, prefixPart]
    apply String.ext
    simp

/-- C7: with the template set to `{{ .Message }}`, for every level allowed at
the current level, every prefix and every text `s`, `Output` on a writer that
accepts the write returns no error and appends exactly the body and one line
feed, where the body is `s` without one trailing line feed if it ends with
one and `s` otherwise; level, time stamp, caller and prefix are not rendered. -/
theorem Output_message_only (l : lgr) (c : Call) (lvl s : GoString) (w : Writer)
    (hlvl : ∃ N ∈ levelKeys, equalIgnoringCase lvl N ∧ levels N ≥ levels l.Level.value)
    (hw : l.out = some w) (hf : w.fault = none) :
    ∃ body : GoString,
      (l.SetTpl "\x7b\x7b .Message \x7d\x7d").Output c lvl s
        = some (none, { l.SetTpl "\x7b\x7b .Message \x7d\x7d" with
            out := some ⟨w.written ++ (body ++ "\n"), none⟩ })
      ∧ (∀ s0 : GoString, s = s0 ++ "\n" → body = s0)
      ∧ ((¬ ∃ s0 : GoString, s = s0 ++ "\n") → body = s) := by
  refine ⟨trimNewline s, ?_, (trimNewline_spec s).1, (trimNewline_spec s).2⟩
  have ht : (l.SetTpl "\x7b\x7b .Message \x7d\x7d").Template
      = { value := "\x7b\x7b .Message \x7d\x7d", engine := some ⟨[.action [.field ["Message"]]]⟩ } := by
    have := tpl_Set_ok l.Template "\x7b\x7b .Message \x7d\x7d" _
      (by rw [show tpl.alias "\x7b\x7b .Message \x7d\x7d" = "\x7b\x7b .Message \x7d\x7d" by decide]
          exact Parse_message)
    simp only [lgr.SetTpl, this]
    rfl
  exact Output_written _ c lvl s _ _ w (allowed_of_spec c.order _ lvl hlvl) (by rw [ht])
    (Execute_message _) hw hf

theorem Output_message_only_witness :
    ((∃ N ∈ levelKeys, equalIgnoringCase "ERROR" N ∧ levels N ≥ levels testLogger.Level.value)
      ∧ testLogger.out = some ⟨"", none⟩ ∧ (⟨"", none⟩ : Writer).fault = none) ∧
    ∃ body : GoString,
      (testLogger.SetTpl "\x7b\x7b .Message \x7d\x7d").Output testCall "ERROR" "Hello, World!\n\n"
        = some (none, { testLogger.SetTpl "\x7b\x7b .Message \x7d\x7d" with
            out := some ⟨"" ++ (body ++ "\n"), none⟩ })
      ∧ (∀ s0 : GoString, "Hello, World!\n\n" = s0 ++ "\n" → body = s0)
      ∧ ((¬ ∃ s0 : GoString, "Hello, World!\n\n" = s0 ++ "\n") → body = "Hello, World!\n\n") :=
  ⟨⟨by decide, by decide, by decide⟩,
    Output_message_only testLogger testCall "ERROR" "Hello, World!\n\n" ⟨"", none⟩
      (by decide) (by decide) (by decide)⟩

/-- C8: with the small preset, for every level name `L` allowed at the current
level, every prefix `p` and every text `m` not ending in a line feed, `Output`
on a writer that accepts the write appends exactly `[`, `L` padded on the
right to width 5, `] `, the prefix part (`p: ` if `p` is not empty), `m` and
one line feed. -/
theorem Output_small_preset (l : lgr) (c : Call) (L p m : GoString) (w : Writer)
    (hL : L ∈ levelKeys) (hallow : levels L ≥ levels l.Level.value)
    (hm : ¬ ∃ m0 : GoString, m = m0 ++ "\n")
    (hw : l.out = some w) (hf : w.fault = none) :
    ((l.SetTpl SmallTpl).SetPrefix p).Output c L m
      = some (none, { (l.SetTpl SmallTpl).SetPrefix p with
          out := some ⟨w.written ++ ("[" ++ padRight 5 L ++ "] " ++ prefixPart p ++ m ++ "\n"),
            none⟩ }) := by
  have ht : ((l.SetTpl SmallTpl).SetPrefix p).Template.engine = some ⟨[
      .action [.ident "printf", .str "[%-5s] ", .field ["Level"]],
      .ifNode [.field ["Prefix"]]
        [.action [.ident "printf", .str "%s: ", .field ["Prefix"]]] none,
      .action [.field ["Message"]]]⟩ := by
    have := tpl_Set_ok l.Template SmallTpl _
      (by rw [show tpl.alias SmallTpl = SmallTpl by decide]; exact Parse_SmallTpl)
    simp only [lgr.SetTpl, lgr.SetPrefix, this]
  have hx := Execute_small (((l.SetTpl SmallTpl).SetPrefix p).msg c L m)
  have hmsg : (((l.SetTpl SmallTpl).SetPrefix p).msg c L m).Message = m := (trimNewline_spec m).2 hm
  have hpre : (((l.SetTpl SmallTpl).SetPrefix p).msg c L m).Prefix = p := rfl
  have hlev : (((l.SetTpl SmallTpl).SetPrefix p).msg c L m).Level = L := rfl
  rw [hmsg, hpre, hlev] at hx
  exact Output_written _ c L m _ _ w
    (allowed_of_spec c.order _ L ⟨L, hL, rfl, hallow⟩) ht hx hw hf

theorem Output_small_preset_witness :
    (WARN ∈ levelKeys ∧ levels WARN ≥ levels (testLogger.SetLevel KeyOrder.listed INFO).Level.value
      ∧ (¬ ∃ m0 : GoString, "Hello, World!" = m0 ++ "\n")
      ∧ (testLogger.SetLevel KeyOrder.listed INFO).out = some ⟨"", none⟩
      ∧ (⟨"", none⟩ : Writer).fault = none) ∧
    (((testLogger.SetLevel KeyOrder.listed INFO).SetTpl SmallTpl).SetPrefix "").Output testCall
        WARN "Hello, World!"
      = some (none, { ((testLogger.SetLevel KeyOrder.listed INFO).SetTpl SmallTpl).SetPrefix "" with
          out := some ⟨"[WARN ] Hello, World!\n", none⟩ }) := by
  have hm : ¬ ∃ m0 : GoString, "Hello, World!" = m0 ++ "\n" := by
    rintro ⟨m0, h⟩
    have := congrArg (fun x => x.data.getLast?) h
    simp at this
  exact ⟨⟨by decide, by decide, hm, by decide, by decide⟩,
    Output_small_preset (testLogger.SetLevel KeyOrder.listed INFO) testCall WARN "" "Hello, World!"
      ⟨"", none⟩ (by decide) (by decide) hm (by decide) (by decide)⟩

/-- An accepted level with a compiled template whose execution fails:
`Output` returns the wrapped error and the logger as it was. -/
theorem Output_render_failed (l : lgr) (c : Call) (lvl s buf err : GoString) (e : Template)
    (h : level.allowed c.order l.Level lvl = true) (he : l.Template.engine = some e)
    (hx : e.Execute (l.msg c lvl s) = ⟨buf, some err⟩) :
    l.Output c lvl s = some (some ("lgr: " ++ err), l) := by
  simp [lgr.Output, h, he, hx, Sprintf_wrap]

/-- C10: the setters of the logger swallow the errors of the components and
change nothing on failure: `SetLevel` with a string that is no level name and
`SetTpl` with a text that fails to compile return the logger as it was.  Each
setter changes its own component only, and on success sets it: `SetOut` the
writer, `SetPrefix` the prefix, `SetLevel` the canonical level name, `SetTpl`
the template text and its engine. -/
theorem setters_frame (l : lgr) :
    (∀ (o : KeyOrder) (v : GoString), (∀ N ∈ levelKeys, ¬ equalIgnoringCase v N) →
      l.SetLevel o v = l) ∧
    (∀ text err : GoString, Parse text = .error err → l.SetTpl text = l) ∧
    (∀ w : Option Writer, (l.SetOut w).out = w ∧ (l.SetOut w).Level = l.Level
      ∧ (l.SetOut w).Prefix = l.Prefix ∧ (l.SetOut w).Template = l.Template
      ∧ (l.SetOut w).skip = l.skip) ∧
    (∀ p : GoString, (l.SetPrefix p).Prefix.String = p ∧ (l.SetPrefix p).out = l.out
      ∧ (l.SetPrefix p).Level = l.Level ∧ (l.SetPrefix p).Template = l.Template
      ∧ (l.SetPrefix p).skip = l.skip) ∧
    (∀ (o : KeyOrder) (v : GoString), (l.SetLevel o v).out = l.out
      ∧ (l.SetLevel o v).Prefix = l.Prefix ∧ (l.SetLevel o v).Template = l.Template
      ∧ (l.SetLevel o v).skip = l.skip
      ∧ ∀ N ∈ levelKeys, equalIgnoringCase v N → (l.SetLevel o v).Level.String = N) ∧
    (∀ text : GoString, (l.SetTpl text).out = l.out ∧ (l.SetTpl text).Level = l.Level
      ∧ (l.SetTpl text).Prefix = l.Prefix ∧ (l.SetTpl text).skip = l.skip
      ∧ ∀ e : Template, Parse (tpl.alias text) = .ok e →
          (l.SetTpl text).Template.String = tpl.alias text
            ∧ (l.SetTpl text).Template.engine = some e) := by
  refine ⟨?_, ?_, ?_, ?_, ?_, ?_⟩
  · intro o v hv
    simp only [lgr.SetLevel, (level_Set_eq o l.Level v).2 hv]
  · intro text err h
    simp only [lgr.SetTpl, tpl_Set_error l.Template text err h]
  · intro w
    exact ⟨rfl, rfl, rfl, rfl, rfl⟩
  · intro p
    exact ⟨rfl, rfl, rfl, rfl, rfl⟩
  · intro o v
    refine ⟨rfl, rfl, rfl, rfl, ?_⟩
    intro N hN hv
    simp only [lgr.SetLevel, (level_Set_eq o l.Level v).1 N hN hv]
    rfl
  · intro text
    refine ⟨rfl, rfl, rfl, rfl, ?_⟩
    intro e he
    simp only [lgr.SetTpl, tpl_Set_ok l.Template text e he]
    exact ⟨rfl, trivial⟩

theorem setters_frame_witness :
    testLogger.SetLevel KeyOrder.listed "unknown" = testLogger
      ∧ testLogger.SetTpl "\x7b\x7b .Message " = testLogger
      ∧ (testLogger.SetPrefix "testing").Prefix.String = "testing"
      ∧ (testLogger.SetLevel KeyOrder.listed "warn").Level.String = WARN :=
  ⟨(setters_frame testLogger).1 KeyOrder.listed "unknown" (by decide),
   (setters_frame testLogger).2.1 _ _ Parse_unclosed,
   ((setters_frame testLogger).2.2.2.1 "testing").1,
   ((setters_frame testLogger).2.2.2.2.1 KeyOrder.listed "warn").2.2.2.2 WARN (by decide)
     (by decide)⟩

theorem Sprintf_not_allowed (a b : GoString) :
    Sprintf "lgr: level [%-5s] not allowed, because current level is [%-5s]" [.str a, .str b]
      = "lgr: level [" ++ padRight 5 a ++ "] not allowed, because current level is ["
          ++ padRight 5 b ++ "]" := by
  apply String.ext
  simp [Sprintf, Sprintf?, doPrintf, printVerb, pad, finishPrintf, padRight]

/-- A rejected level: the error that `Output` returns. -/
theorem Output_not_allowed_error (l : lgr) (c : Call) (lvl s : GoString)
    (h : level.allowed c.order l.Level lvl = false) :
    l.Output c lvl s
      = some (some ("lgr: level [" ++ padRight 5 lvl
          ++ "] not allowed, because current level is [" ++ padRight 5 l.Level.value ++ "]"), l) := by
  simp [lgr.Output, h, Sprintf_not_allowed, level.String]

/-- C11: when `Output` is called with a level name `L` of lower priority than
the current level, it returns the error `lgr: level [L] not allowed, because
current level is [C]` with `L` and the current level `C` each padded on the
right to width 5, and the logger is as before. -/
theorem Output_rejected_error (l : lgr) (c : Call) (L s : GoString)
    (hL : L ∈ levelKeys) (hlow : levels L < levels l.Level.value) :
    l.Output c L s
      = some (some ("lgr: level [" ++ padRight 5 L
          ++ "] not allowed, because current level is [" ++ padRight 5 l.Level.String ++ "]"), l) := by
  apply Output_not_allowed_error
  apply not_allowed_of_spec
  rintro ⟨N, hN, he, hp⟩
  have : N = L := levelKeys_distinct N hN L hL (by unfold equalIgnoringCase at *; rw [he])
  subst this
  omega

theorem Output_rejected_error_witness :
    (DEBUG ∈ levelKeys
      ∧ levels DEBUG < levels (testLogger.SetLevel KeyOrder.listed INFO).Level.value) ∧
    (testLogger.SetLevel KeyOrder.listed INFO).Output testCall DEBUG "Hello, World!"
      = some (some "lgr: level [DEBUG] not allowed, because current level is [INFO ]",
          testLogger.SetLevel KeyOrder.listed INFO) :=
  ⟨by decide, Output_rejected_error (testLogger.SetLevel KeyOrder.listed INFO) testCall DEBUG
    "Hello, World!" (by decide) (by decide)⟩

theorem Format_seconds (t : Time) :
    t.Format "2006/01/02 15:04:05" = some (stampSeconds t) := by
  simp [Time.Format, formatChunks, stampSeconds, startsWithDigit]

theorem Format_millis (t : Time) :
    t.Format "2006/01/02 15:04:05.000" = some (stampMillis t) := by
  simp [Time.Format, formatChunks, stampMillis, stampSeconds, startsWithDigit]
  apply String.ext
  simp

theorem Execute_xsmall (m : message) :
    Template.Execute ⟨[
      .ifNode [.field ["Prefix"]]
        [.action [.ident "printf", .str "%s: ", .field ["Prefix"]]] none,
      .action [.field ["Message"]]]⟩ m
    = ⟨prefixPart m.Prefix ++ m.Message, none⟩ := by
  by_cases hp : m.Prefix = ""
  · simp [Template.Execute, walkList, walk, evalCommand, splitLast, evalChain, evalField, evalArgs,
      Except.map, evalArg, evalCall, printfArgs, Sprintf?, doPrintf, printVerb, pad, finishPrintf,
      isTrue, hp, prefixPart]
  · have hd : m.Prefix.data ≠ [] := fun h => hp (String.ext h)
    simp [Template.Execute, walkList, walk, evalCommand, splitLast, evalChain, evalField, evalArgs,
      Except.map, evalArg, evalCall, printfArgs, Sprintf?, doPrintf, printVerb, pad, finishPrintf,
      isTrue, hp, hd, prefixPart]
    apply String.ext
    simp

theorem Execute_medium (m : message) :
    Template.Execute ⟨[
      .action [.field ["TS", "Format"], .str "2006/01/02 15:04:05"],
      .text " ",
      .action [.ident "printf", .str "[%-5s] ", .field ["Level"]],
      .ifNode [.field ["Prefix"]]
        [.action [.ident "printf", .str "%s: ", .field ["Prefix"]]] none,
      .action [.field ["Message"]]]⟩ m
    = ⟨stampSeconds m.TS ++ " " ++ "[" ++ padRight 5 m.Level ++ "] " ++ prefixPart m.Prefix
        ++ m.Message, none⟩ := by
  by_cases hp : m.Prefix = ""
  · simp [Template.Execute, walkList, walk, evalCommand, splitLast, evalChain, evalField, evalArgs,
      Except.map, evalArg, evalCall, printfArgs, Sprintf?, doPrintf, printVerb, pad, finishPrintf,
      isTrue, hp, padRight, prefixPart, Format_seconds]
    apply String.ext
    simp
  · have hd : m.Prefix.data ≠ [] := fun h => hp (String.ext h)
    simp [Template.Execute, walkList, walk, evalCommand, splitLast, evalChain, evalField, evalArgs,
      Except.map, evalArg, evalCall, printfArgs, Sprintf?, doPrintf, printVerb, pad, finishPrintf,
      isTrue, hp, hd, padRight, prefixPart, Format_seconds]
    apply String.ext
    simp

theorem Execute_large (m : message) :
    Template.Execute ⟨[
      .action [.field ["TS", "Format"], .str "2006/01/02 15:04:05.000"],
      .text " ",
      .action [.ident "printf", .str "[%-5s] ", .field ["Level"]],
      .action [.ident "printf", .str "\x7b%s\x7d ", .field ["Caller"]],
      .ifNode [.field ["Prefix"]]
        [.action [.ident "printf", .str "%s: ", .field ["Prefix"]]] none,
      .action [.field ["Message"]]]⟩ m
    = ⟨stampMillis m.TS ++ " " ++ "[" ++ padRight 5 m.Level ++ "] " ++ "\x7b" ++ m.Caller
        ++ "\x7d " ++ prefixPart m.Prefix ++ m.Message, none⟩ := by
  by_cases hp : m.Prefix = ""
  · simp [Template.Execute, walkList, walk, evalCommand, splitLast, evalChain, evalField, evalArgs,
      Except.map, evalArg, evalCall, printfArgs, Sprintf?, doPrintf, printVerb, pad, finishPrintf,
      isTrue, hp, padRight, prefixPart, Format_millis]
    apply String.ext
    simp
  · have hd : m.Prefix.data ≠ [] := fun h => hp (String.ext h)
    simp [Template.Execute, walkList, walk, evalCommand, splitLast, evalChain, evalField, evalArgs,
      Except.map, evalArg, evalCall, printfArgs, Sprintf?, doPrintf, printVerb, pad, finishPrintf,
      isTrue, hp, hd, padRight, prefixPart, Format_millis]
    apply String.ext
    simp

theorem SetTpl_engine (l : lgr) (text p : GoString) (e : Template)
    (h : Parse (tpl.alias text) = .ok e) :
    ((l.SetTpl text).SetPrefix p).Template.engine = some e := by
  simp only [lgr.SetTpl, lgr.SetPrefix, tpl_Set_ok l.Template text e h]

set_option maxRecDepth 100000 in
theorem alias_presets :
    tpl.alias XSmallTpl = XSmallTpl ∧ tpl.alias SmallTpl = SmallTpl
      ∧ tpl.alias MediumTpl = MediumTpl ∧ tpl.alias LargeTpl = LargeTpl := by
  decide

theorem SetTpl_XSmallTpl (l : lgr) (p : GoString) :
    ((l.SetTpl XSmallTpl).SetPrefix p).Template.engine = some ⟨[
      .ifNode [.field ["Prefix"]]
        [.action [.ident "printf", .str "%s: ", .field ["Prefix"]]] none,
      .action [.field ["Message"]]]⟩ :=
  SetTpl_engine l XSmallTpl p _ (by rw [alias_presets.1]; exact Parse_XSmallTpl)

theorem SetTpl_SmallTpl (l : lgr) (p : GoString) :
    ((l.SetTpl SmallTpl).SetPrefix p).Template.engine = some ⟨[
      .action [.ident "printf", .str "[%-5s] ", .field ["Level"]],
      .ifNode [.field ["Prefix"]]
        [.action [.ident "printf", .str "%s: ", .field ["Prefix"]]] none,
      .action [.field ["Message"]]]⟩ :=
  SetTpl_engine l SmallTpl p _ (by rw [alias_presets.2.1]; exact Parse_SmallTpl)

theorem SetTpl_MediumTpl (l : lgr) (p : GoString) :
    ((l.SetTpl MediumTpl).SetPrefix p).Template.engine = some ⟨[
      .action [.field ["TS", "Format"], .str "2006/01/02 15:04:05"],
      .text " ",
      .action [.ident "printf", .str "[%-5s] ", .field ["Level"]],
      .ifNode [.field ["Prefix"]]
        [.action [.ident "printf", .str "%s: ", .field ["Prefix"]]] none,
      .action [.field ["Message"]]]⟩ :=
  SetTpl_engine l MediumTpl p _ (by rw [alias_presets.2.2.1]; exact Parse_MediumTpl)

theorem SetTpl_LargeTpl (l : lgr) (p : GoString) :
    ((l.SetTpl LargeTpl).SetPrefix p).Template.engine = some ⟨[
      .action [.field ["TS", "Format"], .str "2006/01/02 15:04:05.000"],
      .text " ",
      .action [.ident "printf", .str "[%-5s] ", .field ["Level"]],
      .action [.ident "printf", .str "\x7b%s\x7d ", .field ["Caller"]],
      .ifNode [.field ["Prefix"]]
        [.action [.ident "printf", .str "%s: ", .field ["Prefix"]]] none,
      .action [.field ["Message"]]]⟩ :=
  SetTpl_engine l LargeTpl p _ (by rw [alias_presets.2.2.2]; exact Parse_LargeTpl)

/-- Where the engine does not look at the caller, `Output` does not depend on
the frame that `runtime.Caller` reports. -/
theorem Output_frame_irrelevant (l : lgr) (c : Call) (f : Option (GoString × Int))
    (lvl s : GoString) (e : Template) (he : l.Template.engine = some e)
    (hx : e.Execute (l.msg { c with frame := f } lvl s) = e.Execute (l.msg c lvl s)) :
    l.Output { c with frame := f } lvl s = l.Output c lvl s := by
  simp only [lgr.Output, he, hx]

set_option maxRecDepth 100000 in
/-- An emitted message under the small preset. -/
theorem Output_small_emitted (l : lgr) (c : Call) (lvl p s : GoString) (w : Writer)
    (hlvl : ∃ N ∈ levelKeys, equalIgnoringCase lvl N ∧ levels N ≥ levels l.Level.value)
    (hw : l.out = some w) (hf : w.fault = none) :
    ((l.SetTpl SmallTpl).SetPrefix p).Output c lvl s
      = some (none, { (l.SetTpl SmallTpl).SetPrefix p with
          out := some ⟨w.written ++ ("[" ++ padRight 5 lvl ++ "] " ++ prefixPart p
            ++ trimNewline s ++ "\n"), none⟩ }) :=
  Output_written _ c lvl s _ _ w (allowed_of_spec c.order _ lvl hlvl) (SetTpl_SmallTpl l p)
    (Execute_small (((l.SetTpl SmallTpl).SetPrefix p).msg c lvl s)) hw hf

set_option maxRecDepth 100000 in
/-- An emitted message under the medium preset. -/
theorem Output_medium_emitted (l : lgr) (c : Call) (lvl p s : GoString) (w : Writer)
    (hlvl : ∃ N ∈ levelKeys, equalIgnoringCase lvl N ∧ levels N ≥ levels l.Level.value)
    (hw : l.out = some w) (hf : w.fault = none) :
    ((l.SetTpl MediumTpl).SetPrefix p).Output c lvl s
      = some (none, { (l.SetTpl MediumTpl).SetPrefix p with
          out := some ⟨w.written ++ (stampSeconds c.now ++ " " ++ "[" ++ padRight 5 lvl ++ "] "
            ++ prefixPart p ++ trimNewline s ++ "\n"), none⟩ }) :=
  Output_written _ c lvl s _ _ w (allowed_of_spec c.order _ lvl hlvl) (SetTpl_MediumTpl l p)
    (Execute_medium (((l.SetTpl MediumTpl).SetPrefix p).msg c lvl s)) hw hf

set_option maxRecDepth 100000 in
/-- An emitted message under the large preset. -/
theorem Output_large_emitted (l : lgr) (c : Call) (lvl p s : GoString) (w : Writer)
    (hlvl : ∃ N ∈ levelKeys, equalIgnoringCase lvl N ∧ levels N ≥ levels l.Level.value)
    (hw : l.out = some w) (hf : w.fault = none) :
    ((l.SetTpl LargeTpl).SetPrefix p).Output c lvl s
      = some (none, { (l.SetTpl LargeTpl).SetPrefix p with
          out := some ⟨w.written ++ (stampMillis c.now ++ " " ++ "[" ++ padRight 5 lvl ++ "] "
            ++ "\x7b" ++ callerInfo c.frame ++ "\x7d " ++ prefixPart p ++ trimNewline s ++ "\n"),
            none⟩ }) :=
  Output_written _ c lvl s _ _ w (allowed_of_spec c.order _ lvl hlvl) (SetTpl_LargeTpl l p)
    (Execute_large (((l.SetTpl LargeTpl).SetPrefix p).msg c lvl s)) hw hf

/-- The caller does not reach the output of the three smaller presets. -/
theorem Output_caller_unused (l : lgr) (c : Call) (f : Option (GoString × Int))
    (lvl p s : GoString) :
    ((l.SetTpl XSmallTpl).SetPrefix p).Output { c with frame := f } lvl s
        = ((l.SetTpl XSmallTpl).SetPrefix p).Output c lvl s
      ∧ ((l.SetTpl SmallTpl).SetPrefix p).Output { c with frame := f } lvl s
        = ((l.SetTpl SmallTpl).SetPrefix p).Output c lvl s
      ∧ ((l.SetTpl MediumTpl).SetPrefix p).Output { c with frame := f } lvl s
        = ((l.SetTpl MediumTpl).SetPrefix p).Output c lvl s :=
  ⟨Output_frame_irrelevant _ c f lvl s _ (SetTpl_XSmallTpl l p)
      (by rw [Execute_xsmall, Execute_xsmall]; rfl),
   Output_frame_irrelevant _ c f lvl s _ (SetTpl_SmallTpl l p)
      (by rw [Execute_small, Execute_small]; rfl),
   Output_frame_irrelevant _ c f lvl s _ (SetTpl_MediumTpl l p)
      (by rw [Execute_medium, Execute_medium]; rfl)⟩

/-- C12: with the large preset, for every level name `L` allowed at the
current level, every clock reading, caller, prefix `p` and text `m` not ending
in a line feed, `Output` on a writer that accepts the write appends exactly the
time stamp `2006/01/02 15:04:05.000` of the clock, a space, `[`, `L` padded on
the right to width 5, `] `, the caller in braces and a space, the prefix part,
`m` and one line feed; the stamp is what `Format` gives for that layout; and
under the other three presets the caller does not reach the output. -/
theorem Output_large_preset (l : lgr) (c : Call) (L p m : GoString) (w : Writer)
    (hL : L ∈ levelKeys) (hallow : levels L ≥ levels l.Level.value)
    (hm : ¬ ∃ m0 : GoString, m = m0 ++ "\n")
    (hw : l.out = some w) (hf : w.fault = none) :
    ((l.SetTpl LargeTpl).SetPrefix p).Output c L m
      = some (none, { (l.SetTpl LargeTpl).SetPrefix p with
          out := some ⟨w.written ++ (stampMillis c.now ++ " " ++ "[" ++ padRight 5 L ++ "] "
            ++ "\x7b" ++ callerInfo c.frame ++ "\x7d " ++ prefixPart p ++ m ++ "\n"), none⟩ })
    ∧ c.now.Format "2006/01/02 15:04:05.000" = some (stampMillis c.now)
    ∧ ∀ f : Option (GoString × Int),
        ((l.SetTpl XSmallTpl).SetPrefix p).Output { c with frame := f } L m
          = ((l.SetTpl XSmallTpl).SetPrefix p).Output c L m
        ∧ ((l.SetTpl SmallTpl).SetPrefix p).Output { c with frame := f } L m
          = ((l.SetTpl SmallTpl).SetPrefix p).Output c L m
        ∧ ((l.SetTpl MediumTpl).SetPrefix p).Output { c with frame := f } L m
          = ((l.SetTpl MediumTpl).SetPrefix p).Output c L m := by
  refine ⟨?_, Format_millis c.now, fun f => Output_caller_unused l c f L p m⟩
  have h := Output_large_emitted l c L p m w ⟨L, hL, rfl, hallow⟩ hw hf
  rw [(trimNewline_spec m).2 hm] at h
  exact h

theorem hello_no_newline : ¬ ∃ m0 : GoString, "Hello, World!" = m0 ++ "\n" := by
  rintro ⟨m0, h⟩
  have := congrArg (fun x => x.data.getLast?) h
  simp at this

theorem Output_large_preset_witness :
    (WARN ∈ levelKeys ∧ levels WARN ≥ levels testLogger.Level.value
      ∧ (¬ ∃ m0 : GoString, "Hello, World!" = m0 ++ "\n")
      ∧ testLogger.out = some ⟨"", none⟩ ∧ (⟨"", none⟩ : Writer).fault = none) ∧
    ((testLogger.SetTpl LargeTpl).SetPrefix "").Output testCall WARN "Hello, World!"
      = some (none, { (testLogger.SetTpl LargeTpl).SetPrefix "" with
          out := some ⟨"2019/03/02 00:20:15.000 [WARN ] \x7blgr/lgr_test.go:29\x7d Hello, World!\n",
            none⟩ }) :=
  ⟨⟨by decide, by decide, hello_no_newline, by decide, by decide⟩,
    (Output_large_preset testLogger testCall WARN "" "Hello, World!" ⟨"", none⟩
      (by decide) (by decide) hello_no_newline (by decide) (by decide)).1⟩

/-- One emitted message of a logger that holds the engine of the medium preset
and the empty prefix. -/
theorem Output_medium_step (l : lgr) (c : Call) (lvl s : GoString) (w : Writer)
    (he : l.Template.engine = some ⟨[
      .action [.field ["TS", "Format"], .str "2006/01/02 15:04:05"],
      .text " ",
      .action [.ident "printf", .str "[%-5s] ", .field ["Level"]],
      .ifNode [.field ["Prefix"]]
        [.action [.ident "printf", .str "%s: ", .field ["Prefix"]]] none,
      .action [.field ["Message"]]]⟩)
    (hp : l.Prefix.value = "")
    (hlvl : ∃ N ∈ levelKeys, equalIgnoringCase lvl N ∧ levels N ≥ levels l.Level.value)
    (hw : l.out = some w) (hf : w.fault = none) :
    l.Output c lvl s
      = some (none, { l with out := some ⟨w.written ++ (stampSeconds c.now ++ " " ++ "["
          ++ padRight 5 lvl ++ "] " ++ trimNewline s ++ "\n"), none⟩ }) := by
  have hx := Execute_medium (l.msg c lvl s)
  have hpre : (l.msg c lvl s).Prefix = "" := hp
  rw [hpre] at hx
  have := Output_written l c lvl s _ _ w (allowed_of_spec c.order _ lvl hlvl) he hx hw hf
  rw [this]
  simp [prefixPart, lgr.msg]

set_option maxRecDepth 100000 in
theorem forLevels_state (l : lgr) (o : KeyOrder) :
    (l.forLevels o).Template.engine = some ⟨[
      .action [.field ["TS", "Format"], .str "2006/01/02 15:04:05"],
      .text " ",
      .action [.ident "printf", .str "[%-5s] ", .field ["Level"]],
      .ifNode [.field ["Prefix"]]
        [.action [.ident "printf", .str "%s: ", .field ["Prefix"]]] none,
      .action [.field ["Message"]]]⟩
    ∧ (l.forLevels o).Prefix.value = "" ∧ (l.forLevels o).Level.value = DEBUG
    ∧ (l.forLevels o).out = some ⟨"", none⟩ := by
  refine ⟨SetTpl_MediumTpl l "", rfl, ?_, rfl⟩
  simp only [lgr.forLevels, lgr.SetOut, lgr.SetLevel,
    (level_Set_eq o _ DEBUG).1 DEBUG (by decide) rfl]

/-- A format without `%` and without operands is printed as it is. -/
theorem doPrintf_plain (cs : List Char) (h : '%' ∉ cs) : doPrintf .lit cs [] = some cs := by
  induction cs with
  | nil => rfl
  | cons c cs ih =>
    have hc : c ≠ '%' := fun e => h (by rw [e]; exact List.mem_cons_self _ _)
    have ht : '%' ∉ cs := fun e => h (List.mem_cons_of_mem _ e)
    simp [doPrintf, hc, ih ht]

theorem Sprintf_plain (m : GoString) (h : '%' ∉ m.data) : Sprintf? m [] = some m := by
  simp [Sprintf?, doPrintf_plain m.data h]

/-- The four calls on a logger that holds the engine of the medium preset, the
empty prefix, level `DEBUG` and an empty buffer, when `fmt.Sprintf(m)` is
`text`. -/
theorem fourLevels_medium (l0 : lgr) (c1 c2 c3 c4 : Call) (m text : GoString)
    (hs : Sprintf? m [] = some text)
    (he : l0.Template.engine = some ⟨[
      .action [.field ["TS", "Format"], .str "2006/01/02 15:04:05"],
      .text " ",
      .action [.ident "printf", .str "[%-5s] ", .field ["Level"]],
      .ifNode [.field ["Prefix"]]
        [.action [.ident "printf", .str "%s: ", .field ["Prefix"]]] none,
      .action [.field ["Message"]]]⟩)
    (hp : l0.Prefix.value = "") (hl : l0.Level.value = DEBUG)
    (hw : l0.out = some ⟨"", none⟩) :
    ∃ l4 : lgr, l0.fourLevels c1 c2 c3 c4 m = some l4
      ∧ l4.out = some ⟨"" ++ (stampSeconds c1.now ++ " " ++ "[" ++ padRight 5 DEBUG ++ "] "
            ++ trimNewline text ++ "\n")
          ++ (stampSeconds c2.now ++ " " ++ "[" ++ padRight 5 INFO ++ "] "
            ++ trimNewline text ++ "\n")
          ++ (stampSeconds c3.now ++ " " ++ "[" ++ padRight 5 WARN ++ "] "
            ++ trimNewline text ++ "\n")
          ++ (stampSeconds c4.now ++ " " ++ "[" ++ padRight 5 ERROR ++ "] "
            ++ trimNewline text ++ "\n"), none⟩ := by
  have e1 := Output_medium_step l0 c1 DEBUG text ⟨"", none⟩ he hp
    ⟨DEBUG, by decide, rfl, by rw [hl]⟩ hw rfl
  have e2 := Output_medium_step { l0 with out := some ⟨"" ++ (stampSeconds c1.now ++ " " ++ "["
      ++ padRight 5 DEBUG ++ "] " ++ trimNewline text ++ "\n"), none⟩ } c2 INFO text _ he hp
    ⟨INFO, by decide, rfl, by rw [hl]; decide⟩ rfl rfl
  have e3 := Output_medium_step { l0 with out := some ⟨"" ++ (stampSeconds c1.now ++ " " ++ "["
      ++ padRight 5 DEBUG ++ "] " ++ trimNewline text ++ "\n") ++ (stampSeconds c2.now ++ " " ++ "["
      ++ padRight 5 INFO ++ "] " ++ trimNewline text ++ "\n"), none⟩ } c3 WARN text _ he hp
    ⟨WARN, by decide, rfl, by rw [hl]; decide⟩ rfl rfl
  have e4 := Output_medium_step { l0 with out := some ⟨"" ++ (stampSeconds c1.now ++ " " ++ "["
      ++ padRight 5 DEBUG ++ "] " ++ trimNewline text ++ "\n") ++ (stampSeconds c2.now ++ " " ++ "["
      ++ padRight 5 INFO ++ "] " ++ trimNewline text ++ "\n") ++ (stampSeconds c3.now ++ " " ++ "["
      ++ padRight 5 WARN ++ "] " ++ trimNewline text ++ "\n"), none⟩ } c4 ERROR text _ he hp
    ⟨ERROR, by decide, rfl, by rw [hl]; decide⟩ rfl rfl
  refine ⟨{ l0 with out := some ⟨"" ++ (stampSeconds c1.now ++ " " ++ "[" ++ padRight 5 DEBUG
      ++ "] " ++ trimNewline text ++ "\n") ++ (stampSeconds c2.now ++ " " ++ "[" ++ padRight 5 INFO
      ++ "] " ++ trimNewline text ++ "\n") ++ (stampSeconds c3.now ++ " " ++ "[" ++ padRight 5 WARN
      ++ "] " ++ trimNewline text ++ "\n") ++ (stampSeconds c4.now ++ " " ++ "[" ++ padRight 5 ERROR
      ++ "] " ++ trimNewline text ++ "\n"), none⟩ }, ?_, rfl⟩
  simp only [lgr.fourLevels, lgr.Debug, lgr.Info, lgr.Warn, lgr.Error, lgr.logAt, hs, e1,
    Option.map_some', Option.some_bind, e2, e3, e4]

/-- The four calls after the set-up of the test, under a fixed clock: the
buffer holds the four lines of the text that `fmt.Sprintf(m)` returns, without
one trailing line feed. -/
theorem fourLevels_lines (l : lgr) (o o1 o2 o3 o4 : KeyOrder) (t : Time)
    (f1 f2 f3 f4 : Option (GoString × Int)) (m text : GoString)
    (hs : Sprintf? m [] = some text) :
    ∃ l4 : lgr,
      (l.forLevels o).fourLevels ⟨o1, f1, t⟩ ⟨o2, f2, t⟩ ⟨o3, f3, t⟩ ⟨o4, f4, t⟩ m = some l4
      ∧ l4.out = some ⟨fourLines t (trimNewline text), none⟩ := by
  obtain ⟨he, hp, hl, hw⟩ := forLevels_state l o
  obtain ⟨l4, h4, hout⟩ := fourLevels_medium (l.forLevels o) ⟨o1, f1, t⟩ ⟨o2, f2, t⟩ ⟨o3, f3, t⟩
    ⟨o4, f4, t⟩ m text hs he hp hl hw
  refine ⟨l4, h4, ?_⟩
  rw [hout]
  have hsome : ∀ a b : GoString, a = b → (some (⟨a, none⟩ : Writer)) = some ⟨b, none⟩ :=
    fun a b h => by rw [h]
  apply hsome
  apply String.ext
  simp [fourLines, padRight, DEBUG, INFO, WARN, ERROR]
set_option maxRecDepth 100000 in
theorem fourLines_differ :
    fourLines nowTest "x" ≠ fourLines nowTest "x\n"
      ∧ fourLines nowTest "100%!(NOVERB)" ≠ fourLines nowTest "100%" := by
  decide

/-- C13, as stated, fails for a text that ends in a line feed and for a text
with a `%`: after the set-up of the test, the four calls with `x` and a line
feed leave the four lines of `x` (one line feed is removed before rendering),
and the four calls with `100%` leave the four lines of `100%!(NOVERB)` (the
text is the format of `fmt.Sprintf`); neither is the four lines of the text as
passed. -/
theorem four_levels_not_as_stated :
    (∃ l4 : lgr,
      ((New KeyOrder.listed).forLevels KeyOrder.listed).fourLevels testCall testCall testCall
          testCall "x\n" = some l4
      ∧ l4.out = some ⟨fourLines nowTest "x", none⟩
      ∧ l4.out ≠ some ⟨fourLines nowTest "x\n", none⟩) ∧
    (∃ l4 : lgr,
      ((New KeyOrder.listed).forLevels KeyOrder.listed).fourLevels testCall testCall testCall
          testCall "100%" = some l4
      ∧ l4.out = some ⟨fourLines nowTest "100%!(NOVERB)", none⟩
      ∧ l4.out ≠ some ⟨fourLines nowTest "100%", none⟩) := by
  constructor
  · obtain ⟨l4, h4, hout⟩ := fourLevels_lines (New KeyOrder.listed) KeyOrder.listed
      KeyOrder.listed KeyOrder.listed KeyOrder.listed KeyOrder.listed nowTest
      testCall.frame testCall.frame testCall.frame testCall.frame "x\n" "x\n" (by decide)
    rw [show trimNewline "x\n" = "x" by decide] at hout
    refine ⟨l4, h4, hout, ?_⟩
    rw [hout]
    intro h
    simp only [Option.some.injEq, Writer.mk.injEq, and_true] at h
    exact fourLines_differ.1 h
  · obtain ⟨l4, h4, hout⟩ := fourLevels_lines (New KeyOrder.listed) KeyOrder.listed
      KeyOrder.listed KeyOrder.listed KeyOrder.listed KeyOrder.listed nowTest
      testCall.frame testCall.frame testCall.frame testCall.frame "100%" "100%!(NOVERB)"
      (by decide)
    rw [show trimNewline "100%!(NOVERB)" = "100%!(NOVERB)" by decide] at hout
    refine ⟨l4, h4, hout, ?_⟩
    rw [hout]
    intro h
    simp only [Option.some.injEq, Writer.mk.injEq, and_true] at h
    exact fourLines_differ.2 h

/-- C13, amended: successful `Output` calls append to the sink in call order,
and at level `DEBUG` no level is suppressed: on any logger (so for `New()` and
for `Std`) set up with the medium preset, the empty prefix, level `DEBUG` and
an empty buffer, `Debug(m)`, `Info(m)`, `Warn(m)`, `Error(m)` with a text `m`
that holds no `%` and does not end in a line feed, under a fixed clock `t`,
leave the buffer holding the four lines `<stamp> [DEBUG] m`,
`<stamp> [INFO ] m`, `<stamp> [WARN ] m`, `<stamp> [ERROR] m`, each ended by a
line feed, in that order, where the stamp is `t` in the layout
`2006/01/02 15:04:05`. -/
theorem four_levels_in_order (l : lgr) (o o1 o2 o3 o4 : KeyOrder) (t : Time)
    (f1 f2 f3 f4 : Option (GoString × Int)) (m : GoString)
    (hpct : '%' ∉ m.data) (hm : ¬ ∃ m0 : GoString, m = m0 ++ "\n") :
    t.Format "2006/01/02 15:04:05" = some (stampSeconds t) ∧
    ∃ l4 : lgr,
      (l.forLevels o).fourLevels ⟨o1, f1, t⟩ ⟨o2, f2, t⟩ ⟨o3, f3, t⟩ ⟨o4, f4, t⟩ m = some l4
      ∧ l4.out = some ⟨stampSeconds t ++ " [DEBUG] " ++ m ++ "\n"
          ++ stampSeconds t ++ " [INFO ] " ++ m ++ "\n"
          ++ stampSeconds t ++ " [WARN ] " ++ m ++ "\n"
          ++ stampSeconds t ++ " [ERROR] " ++ m ++ "\n", none⟩ := by
  obtain ⟨l4, h4, hout⟩ := fourLevels_lines l o o1 o2 o3 o4 t f1 f2 f3 f4 m m
    (Sprintf_plain m hpct)
  rw [(trimNewline_spec m).2 hm] at hout
  exact ⟨Format_seconds t, l4, h4, hout⟩

theorem four_levels_in_order_witness :
    ('%' ∉ "Hello, World!".data ∧ ¬ ∃ m0 : GoString, "Hello, World!" = m0 ++ "\n") ∧
    (∃ l4 : lgr,
      ((New KeyOrder.listed).forLevels KeyOrder.listed).fourLevels testCall testCall testCall
          testCall "Hello, World!" = some l4
      ∧ l4.out = some ⟨"2019/03/02 00:20:15 [DEBUG] Hello, World!\n2019/03/02 00:20:15 [INFO ] Hello, World!\n2019/03/02 00:20:15 [WARN ] Hello, World!\n2019/03/02 00:20:15 [ERROR] Hello, World!\n", none⟩) ∧
    (∃ l4 : lgr,
      ((newStd KeyOrder.listed KeyOrder.listed).forLevels KeyOrder.listed).fourLevels testCall
          testCall testCall testCall "Hello, World!" = some l4
      ∧ l4.out = some ⟨"2019/03/02 00:20:15 [DEBUG] Hello, World!\n2019/03/02 00:20:15 [INFO ] Hello, World!\n2019/03/02 00:20:15 [WARN ] Hello, World!\n2019/03/02 00:20:15 [ERROR] Hello, World!\n", none⟩) :=
  ⟨⟨by decide, hello_no_newline⟩,
   (four_levels_in_order (New KeyOrder.listed) KeyOrder.listed KeyOrder.listed KeyOrder.listed
      KeyOrder.listed KeyOrder.listed nowTest _ _ _ _ "Hello, World!" (by decide)
      hello_no_newline).2,
   (four_levels_in_order (newStd KeyOrder.listed KeyOrder.listed) KeyOrder.listed KeyOrder.listed
      KeyOrder.listed KeyOrder.listed KeyOrder.listed nowTest _ _ _ _ "Hello, World!" (by decide)
      hello_no_newline).2⟩

/-- C14: a logger built by `New()` has level `DEBUG`, the large preset as
template (text and compiled engine), the empty prefix, standard error as out
and skip count 2; `Std` is built from `New()` and then has level `INFO`, the
small preset and skip count 3, one more than an explicit logger. -/
theorem New_and_Std_defaults (o o1 o2 : KeyOrder) :
    ((New o).Level.String = DEBUG ∧ (New o).Template.String = LargeTpl
      ∧ (∃ e, Parse LargeTpl = .ok e ∧ (New o).Template.engine = some e)
      ∧ (New o).Prefix.String = "" ∧ (New o).out = some Stderr ∧ (New o).skip = 2) ∧
    (newStd o1 o2 = (({ New o1 with skip := 3 } : lgr).SetTpl SmallTpl).SetLevel o2 INFO
      ∧ (newStd o1 o2).Level.String = INFO ∧ (newStd o1 o2).Template.String = SmallTpl
      ∧ (∃ e, Parse SmallTpl = .ok e ∧ (newStd o1 o2).Template.engine = some e)
      ∧ (newStd o1 o2).Prefix.String = "" ∧ (newStd o1 o2).out = some Stderr
      ∧ (newStd o1 o2).skip = 3 ∧ (newStd o1 o2).skip = (New o).skip + 1) := by
  have hL := fun (t : tpl) => tpl_Set_ok t LargeTpl _
    (by rw [alias_presets.2.2.2]; exact Parse_LargeTpl)
  have hS := fun (t : tpl) => tpl_Set_ok t SmallTpl _
    (by rw [alias_presets.2.1]; exact Parse_SmallTpl)
  have hD := fun (lv : level) => (level_Set_eq o lv DEBUG).1 DEBUG (by decide) rfl
  have hD1 := fun (lv : level) => (level_Set_eq o1 lv DEBUG).1 DEBUG (by decide) rfl
  have hI := fun (lv : level) => (level_Set_eq o2 lv INFO).1 INFO (by decide) rfl
  simp only [alias_presets.2.2.2] at hL
  simp only [alias_presets.2.1] at hS
  refine ⟨⟨?_, ?_, ⟨_, Parse_LargeTpl, ?_⟩, rfl, rfl, rfl⟩, rfl, ?_, ?_, ⟨_, Parse_SmallTpl, ?_⟩,
    rfl, rfl, rfl, rfl⟩
  · simp only [New, lgr.SetLevel, hD]; rfl
  · simp only [New, lgr.SetLevel, lgr.SetTpl, lgr.SetOut, hL]; rfl
  · simp only [New, lgr.SetLevel, lgr.SetTpl, lgr.SetOut, hL]
  · simp only [newStd, lgr.SetLevel, hI]; rfl
  · simp only [newStd, New, lgr.SetLevel, lgr.SetTpl, lgr.SetOut, hL, hS]; rfl
  · simp only [newStd, New, lgr.SetLevel, lgr.SetTpl, lgr.SetOut, hL, hS]

/-- C15: for every `Output` call that passes the level filter and renders
successfully, the sink gets one `Write` with exactly the rendered text followed
by one line feed; if that `Write` returns an error, `Output` returns this very
error, and if it accepts all of it without error, `Output` returns nil (a short
count without error is reported as `short write`). -/
theorem Output_write_result (l : lgr) (c : Call) (lvl s buf : GoString) (e : Template)
    (w : Writer) (hlvl : level.allowed c.order l.Level lvl = true)
    (he : l.Template.engine = some e) (hx : e.Execute (l.msg c lvl s) = ⟨buf, none⟩)
    (hw : l.out = some w) :
    ∃ ret : Option GoString,
      l.Output c lvl s = some (ret, { l with out := some (w.Write (buf ++ "\n")).1 })
      ∧ (∀ err, (w.Write (buf ++ "\n")).2.2 = some err → ret = some err)
      ∧ ((w.Write (buf ++ "\n")).2.2 = none
          → (w.Write (buf ++ "\n")).2.1 = (buf ++ "\n").data.length → ret = none)
      ∧ ((w.Write (buf ++ "\n")).2.2 = none
          → (w.Write (buf ++ "\n")).2.1 ≠ (buf ++ "\n").data.length
          → ret = some "short write") := by
  have hlen : (buf ++ "\n").data.length > 0 := by simp
  refine ⟨(writeTo (buf ++ "\n") w).2, ?_, ?_, ?_, ?_⟩
  · have h1 : (writeTo (buf ++ "\n") w).1 = (w.Write (buf ++ "\n")).1 := by
      unfold writeTo
      rw [if_pos hlen]
      rcases hW : w.Write (buf ++ "\n") with ⟨w1, n, _ | err⟩
      · simp only []; split <;> rfl
      · rfl
    simp only [lgr.Output, hlvl, he, hx, hw, h1]
    rfl
  · intro err herr
    unfold writeTo
    rw [if_pos hlen]
    rcases hW : w.Write (buf ++ "\n") with ⟨w1, n, _ | err1⟩
    · rw [hW] at herr; exact absurd herr (by simp)
    · rw [hW] at herr; simp only [Option.some.injEq] at herr; rw [herr]
  · intro hnone hn
    unfold writeTo
    rw [if_pos hlen]
    rcases hW : w.Write (buf ++ "\n") with ⟨w1, n, _ | err1⟩
    · rw [hW] at hn; simp only at hn; simp [hn]
    · rw [hW] at hnone; exact absurd hnone (by simp)
  · intro hnone hn
    unfold writeTo
    rw [if_pos hlen]
    rcases hW : w.Write (buf ++ "\n") with ⟨w1, n, _ | err1⟩
    · rw [hW] at hn
      have hn1 : ¬ n = String.length buf + 1 := by
        intro h; apply hn; simp [h]
      simp [hn1]
    · rw [hW] at hnone; exact absurd hnone (by simp)

theorem Output_write_result_witness :
    (level.allowed testCall.order
        (((testLogger.SetOut (some ⟨"", some (3, some "disk full")⟩)).SetTpl SmallTpl).SetPrefix
          "").Level WARN = true) ∧
    ∃ ret : Option GoString,
      (((testLogger.SetOut (some ⟨"", some (3, some "disk full")⟩)).SetTpl SmallTpl).SetPrefix
          "").Output testCall WARN "Hello, World!"
        = some (ret, { ((testLogger.SetOut (some ⟨"", some (3, some "disk full")⟩)).SetTpl
              SmallTpl).SetPrefix "" with
            out := some ((⟨"", some (3, some "disk full")⟩ : Writer).Write
              ("[WARN ] Hello, World!" ++ "\n")).1 })
      ∧ (∀ err, ((⟨"", some (3, some "disk full")⟩ : Writer).Write
            ("[WARN ] Hello, World!" ++ "\n")).2.2 = some err → ret = some err)
      ∧ (((⟨"", some (3, some "disk full")⟩ : Writer).Write
            ("[WARN ] Hello, World!" ++ "\n")).2.2 = none
          → ((⟨"", some (3, some "disk full")⟩ : Writer).Write
            ("[WARN ] Hello, World!" ++ "\n")).2.1 = ("[WARN ] Hello, World!" ++ "\n").data.length
          → ret = none)
      ∧ (((⟨"", some (3, some "disk full")⟩ : Writer).Write
            ("[WARN ] Hello, World!" ++ "\n")).2.2 = none
          → ((⟨"", some (3, some "disk full")⟩ : Writer).Write
            ("[WARN ] Hello, World!" ++ "\n")).2.1 ≠ ("[WARN ] Hello, World!" ++ "\n").data.length
          → ret = some "short write") :=
  ⟨by decide,
    Output_write_result
      (((testLogger.SetOut (some ⟨"", some (3, some "disk full")⟩)).SetTpl SmallTpl).SetPrefix "")
      testCall WARN "Hello, World!" "[WARN ] Hello, World!" _ ⟨"", some (3, some "disk full")⟩
      (by decide) (SetTpl_SmallTpl _ "") (by decide) rfl⟩

set_option maxRecDepth 100000 in
theorem aliasNames_replaced : ∀ a ∈ aliasNames, replacedByPreset a := by
  unfold replacedByPreset
  decide

theorem alias_other (a : GoString) (h : a ∉ aliasNames) : tpl.alias a = a := by
  simp only [aliasNames, List.mem_cons, List.mem_singleton, List.not_mem_nil, or_false,
    not_or] at h
  obtain ⟨h1, h2, h3, h4, h5, h6, h7, h8⟩ := h
  simp [tpl.alias, h1, h2, h3, h4, h5, h6, h7, h8]

theorem replaced_iff (a : GoString) : replacedByPreset a ↔ a ∈ aliasNames := by
  constructor
  · intro h
    by_contra hn
    exact h.1 (alias_other a hn)
  · exact aliasNames_replaced a

/-- C16, as stated, fails: the eight names of the switch are pairwise distinct
and each is replaced by a preset body, so no list of six strings holds all the
strings that are replaced. -/
theorem alias_table_not_six :
    aliasNames.length = 8 ∧ aliasNames.Nodup ∧ (∀ a ∈ aliasNames, replacedByPreset a) ∧
    ¬ ∃ six : List GoString, six.length = 6 ∧ ∀ a, replacedByPreset a ↔ a ∈ six := by
  refine ⟨rfl, by decide, aliasNames_replaced, ?_⟩
  rintro ⟨six, hlen, h⟩
  have hsub : aliasNames ⊆ six := fun a ha => (h a).1 (aliasNames_replaced a ha)
  have hle := (List.subperm_of_subset (by decide : aliasNames.Nodup) hsub).length_le
  rw [hlen] at hle
  exact absurd hle (by decide)

/-- C16, amended: the alias table consulted by `tpl.Set` before compiling has
exactly eight entries: the eight distinct names `XSmallTpl`, `xs`, `SmallTpl`,
`sm`, `MediumTpl`, `md`, `LargeTpl`, `lg` are replaced by a preset body, and
every other string is compiled as raw template text. -/
theorem alias_table_eight :
    aliasNames.length = 8 ∧ aliasNames.Nodup ∧ (∀ a, replacedByPreset a ↔ a ∈ aliasNames) ∧
    (∀ a, a ∉ aliasNames → tpl.alias a = a) ∧
    (∀ (t : tpl) (a : GoString), a ∉ aliasNames →
      t.Set a = match Parse a with
        | .error err => (some (Sprintf "afs: set template: %v" [.str err]), t)
        | .ok e => (none, { value := a, engine := some e })) := by
  refine ⟨rfl, by decide, replaced_iff, alias_other, ?_⟩
  intro t a ha
  simp only [tpl.Set, alias_other a ha]

theorem alias_table_eight_witness :
    ("plain text" ∉ aliasNames) ∧ tpl.alias "plain text" = "plain text"
      ∧ replacedByPreset "XSmallTpl" ∧ replacedByPreset "lg" :=
  ⟨by decide, alias_table_eight.2.2.2.1 "plain text" (by decide),
    (alias_table_eight.2.2.1 "XSmallTpl").2 (by decide),
    (alias_table_eight.2.2.1 "lg").2 (by decide)⟩

theorem length_of_equalIgnoringCase (v N : GoString) (h : equalIgnoringCase v N) :
    v.data.length = N.data.length := by
  have := congrArg List.length h
  simpa using this

theorem key_length : ∀ N ∈ levelKeys, N.data.length ≤ 5 := by decide

theorem padRight_length (v : GoString) (h : v.data.length ≤ 5) :
    (padRight 5 v).data.length = 5 := by
  simp only [padRight, List.length_append, List.length_replicate]
  omega

/-- C17: for every `Output` call whose level string passed the filter, under
the small, the medium and the large preset, the rendered text holds the level
field `[`, the level string padded on the right with spaces, `] `, and the text
between the brackets is exactly 5 characters long: the level string is never
longer than 5. -/
theorem level_field_width (l : lgr) (c : Call) (lvl p s : GoString)
    (h : level.allowed c.order l.Level lvl = true) :
    lvl.data.length ≤ 5 ∧ (padRight 5 lvl).data.length = 5
    ∧ (padRight 5 lvl).data = lvl.data ++ List.replicate (5 - lvl.data.length) ' '
    ∧ (((l.SetTpl SmallTpl).SetPrefix p).Template.engine.map fun e =>
        e.Execute (((l.SetTpl SmallTpl).SetPrefix p).msg c lvl s))
      = some ⟨"[" ++ padRight 5 lvl ++ "] " ++ prefixPart p ++ trimNewline s, none⟩
    ∧ (((l.SetTpl MediumTpl).SetPrefix p).Template.engine.map fun e =>
        e.Execute (((l.SetTpl MediumTpl).SetPrefix p).msg c lvl s))
      = some ⟨stampSeconds c.now ++ " " ++ "[" ++ padRight 5 lvl ++ "] " ++ prefixPart p
          ++ trimNewline s, none⟩
    ∧ (((l.SetTpl LargeTpl).SetPrefix p).Template.engine.map fun e =>
        e.Execute (((l.SetTpl LargeTpl).SetPrefix p).msg c lvl s))
      = some ⟨stampMillis c.now ++ " " ++ "[" ++ padRight 5 lvl ++ "] " ++ "\x7b"
          ++ callerInfo c.frame ++ "\x7d " ++ prefixPart p ++ trimNewline s, none⟩ := by
  obtain ⟨N, hN, he, -⟩ := (allowed_iff c.order l.Level lvl).1 h
  have hlen : lvl.data.length ≤ 5 := by
    rw [length_of_equalIgnoringCase lvl N he]; exact key_length N hN
  refine ⟨hlen, padRight_length lvl hlen, rfl, ?_, ?_, ?_⟩
  · rw [SetTpl_SmallTpl l p, Option.map_some', Execute_small]; rfl
  · rw [SetTpl_MediumTpl l p, Option.map_some', Execute_medium]; rfl
  · rw [SetTpl_LargeTpl l p, Option.map_some', Execute_large]; rfl

theorem level_field_width_witness :
    level.allowed testCall.order testLogger.Level "warn" = true ∧
    ("warn".data.length ≤ 5 ∧ (padRight 5 "warn").data.length = 5
      ∧ ((testLogger.SetTpl SmallTpl).SetPrefix "").Template.engine.map (fun e =>
          e.Execute (((testLogger.SetTpl SmallTpl).SetPrefix "").msg testCall "warn" "m"))
        = some ⟨"[warn ] m", none⟩) :=
  ⟨by decide,
    (level_field_width testLogger testCall "warn" "" "m" (by decide)).1,
    (level_field_width testLogger testCall "warn" "" "m" (by decide)).2.1,
    (level_field_width testLogger testCall "warn" "" "m" (by decide)).2.2.2.1⟩

/-- C18: `level.Set` is deterministic although the order of the scan is
unspecified: for every input at most one of the four level names equals it
ignoring case (and at most one is accepted by `EqualFold`), so the stored level
and the returned error are the same for every two orders in which the names
are tried. -/
theorem level_Set_deterministic :
    (∀ v : GoString, ∀ N1 ∈ levelKeys, ∀ N2 ∈ levelKeys,
      equalIgnoringCase v N1 → equalIgnoringCase v N2 → N1 = N2) ∧
    (∀ v : GoString, ∀ N1 ∈ levelKeys, ∀ N2 ∈ levelKeys,
      EqualFold v N1 = true → EqualFold v N2 = true → N1 = N2) ∧
    (∀ (o1 o2 : KeyOrder) (l : level) (v : GoString), level.Set o1 l v = level.Set o2 l v) := by
  have h1 : ∀ v : GoString, ∀ N1 ∈ levelKeys, ∀ N2 ∈ levelKeys,
      equalIgnoringCase v N1 → equalIgnoringCase v N2 → N1 = N2 := by
    intro v N1 h1 N2 h2 e1 e2
    apply levelKeys_distinct N1 h1 N2 h2
    unfold equalIgnoringCase at *
    rw [← e1, e2]
  refine ⟨h1, ?_, ?_⟩
  · intro v N1 hN1 N2 hN2 e1 e2
    exact h1 v N1 hN1 N2 hN2 ((EqualFold_key_iff v N1 hN1).1 e1) ((EqualFold_key_iff v N2 hN2).1 e2)
  · intro o1 o2 l v
    have hs : level.scan v o1.val = level.scan v o2.val := by
      cases hs1 : level.scan v o1.val with
      | none => exact ((scan_order_none o2 v).2 ((scan_order_none o1 v).1 hs1)).symm
      | some k => exact ((scan_order_iff o2 v k).2 ((scan_order_iff o1 v k).1 hs1)).symm
    simp only [level.Set, hs]

theorem level_Set_deterministic_witness :
    level.Set ⟨[ERROR, WARN, INFO, DEBUG], by decide⟩ { value := INFO } "warn"
      = level.Set KeyOrder.listed { value := INFO } "warn" :=
  level_Set_deterministic.2.2 ⟨[ERROR, WARN, INFO, DEBUG], by decide⟩ KeyOrder.listed
    { value := INFO } "warn"

/-- C19: `Output` does not canonicalise the level it renders: for every level
string that equals a level name ignoring case and is allowed at the current
level, the message is emitted, and the field `Level` of the message record is
the string as the caller passed it; under the small preset the writer gets
`[`, that string padded to width 5, `] `, the prefix part, the text and a line
feed. -/
theorem Output_level_as_passed (l : lgr) (c : Call) (lvl p m : GoString) (w : Writer)
    (hlvl : ∃ N ∈ levelKeys, equalIgnoringCase lvl N ∧ levels N ≥ levels l.Level.value)
    (hm : ¬ ∃ m0 : GoString, m = m0 ++ "\n")
    (hw : l.out = some w) (hf : w.fault = none) :
    (l.msg c lvl m).Level = lvl ∧
    ((l.SetTpl SmallTpl).SetPrefix p).Output c lvl m
      = some (none, { (l.SetTpl SmallTpl).SetPrefix p with
          out := some ⟨w.written ++ ("[" ++ padRight 5 lvl ++ "] " ++ prefixPart p ++ m ++ "\n"),
            none⟩ }) := by
  refine ⟨rfl, ?_⟩
  have h := Output_small_emitted l c lvl p m w hlvl hw hf
  rw [(trimNewline_spec m).2 hm] at h
  exact h

theorem m_no_newline : ¬ ∃ m0 : GoString, "m" = m0 ++ "\n" := by
  rintro ⟨m0, h⟩
  have := congrArg (fun x => x.data.getLast?) h
  simp at this

theorem Output_level_as_passed_witness :
    ((∃ N ∈ levelKeys, equalIgnoringCase "warn" N ∧ levels N ≥ levels testLogger.Level.value)
      ∧ (¬ ∃ m0 : GoString, "m" = m0 ++ "\n")
      ∧ testLogger.out = some ⟨"", none⟩ ∧ (⟨"", none⟩ : Writer).fault = none) ∧
    ((testLogger.msg testCall "warn" "m").Level = "warn" ∧
    ((testLogger.SetTpl SmallTpl).SetPrefix "").Output testCall "warn" "m"
      = some (none, { (testLogger.SetTpl SmallTpl).SetPrefix "" with
          out := some ⟨"[warn ] m\n", none⟩ })) :=
  ⟨⟨by decide, m_no_newline, by decide, by decide⟩,
    Output_level_as_passed testLogger testCall "warn" "" "m" ⟨"", none⟩ (by decide) m_no_newline
      (by decide) (by decide)⟩

theorem New_level (o : KeyOrder) : (New o).Level.value = DEBUG := by
  simp only [New, lgr.SetLevel, (level_Set_eq o _ DEBUG).1 DEBUG (by decide) rfl]

theorem newStd_level (o1 o2 : KeyOrder) : (newStd o1 o2).Level.value = INFO := by
  simp only [newStd, lgr.SetLevel, (level_Set_eq o2 _ INFO).1 INFO (by decide) rfl]

theorem level_Set_mem (o : KeyOrder) (lv : level) (v : GoString)
    (h : lv.value ∈ levelKeys) : (lv.Set o v).2.value ∈ levelKeys := by
  unfold level.Set
  cases hs : level.scan v o.val with
  | none => exact h
  | some k => exact ((scan_order_iff o v k).1 hs).1

theorem Output_level (l : lgr) (c : Call) (lvl s : GoString) (ret : Option GoString) (l1 : lgr)
    (h : l.Output c lvl s = some (ret, l1)) : l1.Level = l.Level := by
  unfold lgr.Output at h
  split at h
  · simp only [Option.some.injEq, Prod.mk.injEq] at h
    rw [← h.2]
  · dsimp only at h
    split at h
    · exact Option.noConfusion h
    · split at h
      · simp only [Option.some.injEq, Prod.mk.injEq] at h
        rw [← h.2]
      · split at h
        · exact Option.noConfusion h
        · simp only [Option.some.injEq, Prod.mk.injEq] at h
          rw [← h.2]

/-- C20: the current level of every logger reached from `New()` or `Std` by
`SetOut`, `SetPrefix`, `SetLevel`, `SetTpl`, `Set` on a component and `Output`
is one of the four canonical names; `level.Set` keeps a canonical level
canonical whether its argument is valid or not. -/
theorem level_always_canonical :
    (∀ l : lgr, Reachable l → l.Level.String ∈ levelKeys) ∧
    (∀ (o : KeyOrder) (lv : level) (v : GoString), lv.String ∈ levelKeys →
      (lv.Set o v).2.String ∈ levelKeys) := by
  refine ⟨?_, level_Set_mem⟩
  intro l hl
  induction hl with
  | new o =>
    have := (New_level o)
    rw [level.String, this]; decide
  | std o1 o2 =>
    have := (newStd_level o1 o2)
    rw [level.String, this]; decide
  | setOut l w _ ih => exact ih
  | setPrefix l p _ ih => exact ih
  | setLevel l o v _ ih => exact level_Set_mem o l.Level v ih
  | setTpl l text _ ih => exact ih
  | levelSet l o v _ ih => exact level_Set_mem o l.Level v ih
  | prefixSet l p _ ih => exact ih
  | templateSet l text _ ih => exact ih
  | output l c lvl s ret l1 _ h ih =>
    rw [level.String, Output_level l c lvl s ret l1 h]; exact ih

theorem level_always_canonical_witness :
    Reachable ((New KeyOrder.listed).SetLevel KeyOrder.listed "garbage") ∧
    ((New KeyOrder.listed).SetLevel KeyOrder.listed "garbage").Level.String ∈ levelKeys :=
  ⟨Reachable.setLevel _ _ _ (Reachable.new _),
    level_always_canonical.1 _ (Reachable.setLevel _ _ _ (Reachable.new _))⟩

/-! ## Templates that fail at render time -/

theorem takeWhile_fieldName (F rest : List Char) (hF : ∀ c ∈ F, isAlphaNumeric c = true) :
    (F ++ ' ' :: rest).takeWhile isAlphaNumeric = F := by
  induction F with
  | nil => rfl
  | cons c F ih =>
    have hc := hF c (List.mem_cons_self _ _)
    simp [List.takeWhile, hc, ih (fun x hx => hF x (List.mem_cons_of_mem _ hx))]

theorem dropWhile_fieldName (F rest : List Char) (hF : ∀ c ∈ F, isAlphaNumeric c = true) :
    (F ++ ' ' :: rest).dropWhile isAlphaNumeric = ' ' :: rest := by
  induction F with
  | nil => rfl
  | cons c F ih =>
    have hc := hF c (List.mem_cons_self _ _)
    simp [List.dropWhile, hc, ih (fun x hx => hF x (List.mem_cons_of_mem _ hx))]

theorem startsWithDigit_append (F rest : List Char) (hne : F ≠ []) :
    startsWithDigit (F ++ rest) = startsWithDigit F := by
  cases F with
  | nil => exact absurd rfl hne
  | cons c F => rfl

theorem lex_message_field (n : Nat) (F : List Char) (hne : F ≠ [])
    (hF : ∀ c ∈ F, isAlphaNumeric c = true) (hd : startsWithDigit F = false) :
    lex (n + 8) false ("\x7b\x7b .Message.".data ++ F ++ " \x7d\x7d".data)
      = .ok [.leftDelim, .tok .space, .tok (.field "Message".data), .tok (.field F),
          .tok .space, .rightDelim] := by
  have hs := startsWithDigit_append F (' ' :: '}' :: '}' :: []) hne
  have ht := takeWhile_fieldName F ('}' :: '}' :: []) hF
  have hdr := dropWhile_fieldName F ('}' :: '}' :: []) hF
  have hnil : F.isEmpty = false := by cases F with
    | nil => exact absurd rfl hne
    | cons _ _ => rfl
  have hsd : startsWithDigit (F ++ [' ', '\x7d', '\x7d']) = false := by rw [hs, hd]
  have hM : ∀ r : List Char, startsWithDigit ('M' :: r) = false := fun r => by
    simp [startsWithDigit]
  simp [lex, splitLeftDelim, isSpace, List.dropWhile, List.takeWhile, hM, hsd,
    isAlphaNumeric, atNonASCII, atTerminator, atRightDelim, Except.map, ht, hdr, hnil]

theorem lex_record_field (n : Nat) (F : List Char) (hne : F ≠ [])
    (hF : ∀ c ∈ F, isAlphaNumeric c = true) (hd : startsWithDigit F = false) :
    lex (n + 8) false ("\x7b\x7b .".data ++ F ++ " \x7d\x7d".data)
      = .ok [.leftDelim, .tok .space, .tok (.field F), .tok .space, .rightDelim] := by
  have hs := startsWithDigit_append F (' ' :: '}' :: '}' :: []) hne
  have ht := takeWhile_fieldName F ('}' :: '}' :: []) hF
  have hdr := dropWhile_fieldName F ('}' :: '}' :: []) hF
  have hnil : F.isEmpty = false := by cases F with
    | nil => exact absurd rfl hne
    | cons _ _ => rfl
  have hsd : startsWithDigit (F ++ [' ', '}', '}']) = false := by rw [hs, hd]
  simp [lex, splitLeftDelim, isSpace, List.dropWhile, List.takeWhile, hsd,
    isAlphaNumeric, atNonASCII, atTerminator, atRightDelim, Except.map, ht, hdr, hnil]

/-- A template that reads the field `F` of the text field `Message` compiles. -/
theorem Parse_message_field (F : GoString) (hF : fieldName F) :
    Parse ("\x7b\x7b .Message." ++ F ++ " \x7d\x7d") = .ok ⟨[.action [.field ["Message", F]]]⟩ := by
  obtain ⟨hne, hal, hd⟩ := hF
  have hdata : ("\x7b\x7b .Message." ++ F ++ " \x7d\x7d").data
      = "\x7b\x7b .Message.".data ++ F.data ++ " \x7d\x7d".data := by simp
  have hlen : ("\x7b\x7b .Message." ++ F ++ " \x7d\x7d").data.length + 1
      = (F.data.length + 8) + 8 := by
    rw [hdata, List.length_append, List.length_append]
    have h1 : "\x7b\x7b .Message.".data.length = 12 := rfl
    have h2 : " \x7d\x7d".data.length = 3 := rfl
    omega
  unfold Parse
  rw [hlen, hdata, lex_message_field _ F.data hne hal hd]
  simp [build, action, skipSpace, pipeline, command, operand, takeFields, Except.map]

/-- A template that reads the field `F` of the record compiles. -/
theorem Parse_record_field (F : GoString) (hF : fieldName F) :
    Parse ("\x7b\x7b ." ++ F ++ " \x7d\x7d") = .ok ⟨[.action [.field [F]]]⟩ := by
  obtain ⟨hne, hal, hd⟩ := hF
  have hdata : ("\x7b\x7b ." ++ F ++ " \x7d\x7d").data
      = "\x7b\x7b .".data ++ F.data ++ " \x7d\x7d".data := by simp
  have hlen : ("\x7b\x7b ." ++ F ++ " \x7d\x7d").data.length + 1 = F.data.length + 8 := by
    rw [hdata, List.length_append, List.length_append]
    have h1 : "\x7b\x7b .".data.length = 4 := rfl
    have h2 : " \x7d\x7d".data.length = 3 := rfl
    omega
  unfold Parse
  rw [hlen, hdata, lex_record_field _ F.data hne hal hd]
  simp [build, action, skipSpace, pipeline, command, operand, takeFields, Except.map]

set_option maxRecDepth 100000 in
theorem Parse_text_then_broken :
    Parse "abc\x7b\x7b .Level \x7d\x7d\x7b\x7b .Message.BROKEN \x7d\x7ddef"
      = .ok ⟨[.text "abc", .action [.field ["Level"]],
          .action [.field ["Message", "BROKEN"]], .text "def"]⟩ := by rfl

theorem Execute_message_field (F : GoString) (m : message) :
    Template.Execute ⟨[.action [.field ["Message", F]]]⟩ m
      = ⟨"", some ("can't evaluate field " ++ F ++ " in type string")⟩ := by
  simp [Template.Execute, walkList, walk, evalCommand, splitLast, evalChain, evalField]

theorem Execute_record_field (F : GoString) (m : message) (h : F ∉ messageFields) :
    Template.Execute ⟨[.action [.field [F]]]⟩ m
      = ⟨"", some ("can't evaluate field " ++ F ++ " in type lgr.message")⟩ := by
  simp only [messageFields, List.mem_cons, List.mem_singleton, List.not_mem_nil, or_false,
    not_or] at h
  obtain ⟨h1, h2, h3, h4, h5⟩ := h
  simp [Template.Execute, walkList, walk, evalCommand, splitLast, evalChain, evalField,
    h1, h2, h3, h4, h5]

theorem Execute_text_then_broken (m : message) :
    Template.Execute ⟨[.text "abc", .action [.field ["Level"]],
        .action [.field ["Message", "BROKEN"]], .text "def"]⟩ m
      = ⟨"abc" ++ m.Level, some "can't evaluate field BROKEN in type string"⟩ := by
  simp [Template.Execute, walkList, walk, evalCommand, splitLast, evalChain, evalField]

/-- A text that starts with a brace is no alias. -/
theorem alias_of_brace (t : GoString) (h : t.data.head? = some '\x7b') : tpl.alias t = t := by
  apply alias_other
  intro hmem
  simp only [aliasNames, List.mem_cons, List.mem_singleton, List.not_mem_nil, or_false] at hmem
  rcases hmem with h1 | h1 | h1 | h1 | h1 | h1 | h1 | h1 <;> (rw [h1] at h; revert h; decide)

/-- After `SetTpl` with a text that compiles, the logger holds the engine. -/
theorem SetTpl_compiled (l : lgr) (text : GoString) (e : Template)
    (ha : tpl.alias text = text) (h : Parse text = .ok e) :
    (l.Template.Set text).1 = none ∧ (l.SetTpl text).Template.engine = some e := by
  have hs := tpl_Set_ok l.Template text e (by rw [ha]; exact h)
  constructor
  · rw [hs]
  · simp only [lgr.SetTpl, hs]

/-- C9: a template can compile and yet fail at render time, and then nothing
reaches the sink.  For every level allowed at the current level: whatever the
engine of the logger is and whatever it wrote to its buffer before it failed,
`Output` returns the error of the engine behind `lgr: ` and the logger, sink
included, is as before; the template `{{ .Message.BROKEN }}`, every template
`{{ .Message.F }}` and every template `{{ .F }}` with `F` no field of the
record are accepted by `tpl.Set` and make `Output` fail in this way; so does
`abc{{ .Level }}{{ .Message.BROKEN }}def`, whose engine has already written
`abc` and the level to its buffer when it fails. -/
theorem Output_render_error (l : lgr) (c : Call) (lvl s : GoString)
    (hlvl : ∃ N ∈ levelKeys, equalIgnoringCase lvl N ∧ levels N ≥ levels l.Level.value) :
    (∀ (e : Template) (buf err : GoString), l.Template.engine = some e →
      e.Execute (l.msg c lvl s) = ⟨buf, some err⟩ →
      l.Output c lvl s = some (some ("lgr: " ++ err), l)) ∧
    ((l.Template.Set "\x7b\x7b .Message.BROKEN \x7d\x7d").1 = none ∧
      ∃ err : GoString,
        (l.SetTpl "\x7b\x7b .Message.BROKEN \x7d\x7d").Output c lvl s
          = some (some ("lgr: " ++ err), l.SetTpl "\x7b\x7b .Message.BROKEN \x7d\x7d")) ∧
    (∀ F : GoString, fieldName F →
      (l.Template.Set ("\x7b\x7b .Message." ++ F ++ " \x7d\x7d")).1 = none ∧
      ∃ err : GoString,
        (l.SetTpl ("\x7b\x7b .Message." ++ F ++ " \x7d\x7d")).Output c lvl s
          = some (some ("lgr: " ++ err), l.SetTpl ("\x7b\x7b .Message." ++ F ++ " \x7d\x7d"))) ∧
    (∀ F : GoString, fieldName F → F ∉ messageFields →
      (l.Template.Set ("\x7b\x7b ." ++ F ++ " \x7d\x7d")).1 = none ∧
      ∃ err : GoString,
        (l.SetTpl ("\x7b\x7b ." ++ F ++ " \x7d\x7d")).Output c lvl s
          = some (some ("lgr: " ++ err), l.SetTpl ("\x7b\x7b ." ++ F ++ " \x7d\x7d"))) ∧
    ((l.Template.Set "abc\x7b\x7b .Level \x7d\x7d\x7b\x7b .Message.BROKEN \x7d\x7ddef").1 = none ∧
      ∃ (e : Template) (err : GoString),
        (l.SetTpl "abc\x7b\x7b .Level \x7d\x7d\x7b\x7b .Message.BROKEN \x7d\x7ddef").Template.engine
          = some e
        ∧ e.Execute ((l.SetTpl
            "abc\x7b\x7b .Level \x7d\x7d\x7b\x7b .Message.BROKEN \x7d\x7ddef").msg c lvl s)
          = ⟨"abc" ++ lvl, some err⟩
        ∧ (l.SetTpl "abc\x7b\x7b .Level \x7d\x7d\x7b\x7b .Message.BROKEN \x7d\x7ddef").Output c lvl s
          = some (some ("lgr: " ++ err),
              l.SetTpl "abc\x7b\x7b .Level \x7d\x7d\x7b\x7b .Message.BROKEN \x7d\x7ddef")) := by
  have hal := fun (l1 : lgr) (h : l1.Level = l.Level) =>
    allowed_of_spec c.order l1.Level lvl (by rw [h]; exact hlvl)
  refine ⟨?_, ?_, ?_, ?_, ?_⟩
  · intro e buf err he hx
    exact Output_render_failed l c lvl s buf err e (hal l rfl) he hx
  · obtain ⟨h1, h2⟩ := SetTpl_compiled l "\x7b\x7b .Message.BROKEN \x7d\x7d" _
      (alias_of_brace _ (by decide)) Parse_broken_field
    exact ⟨h1, _, Output_render_failed _ c lvl s _ _ _ (hal _ rfl) h2 (Execute_broken_field _)⟩
  · intro F hF
    obtain ⟨h1, h2⟩ := SetTpl_compiled l ("\x7b\x7b .Message." ++ F ++ " \x7d\x7d") _
      (alias_of_brace _ (by simp)) (Parse_message_field F hF)
    exact ⟨h1, _, Output_render_failed _ c lvl s _ _ _ (hal _ rfl) h2 (Execute_message_field F _)⟩
  · intro F hF hn
    obtain ⟨h1, h2⟩ := SetTpl_compiled l ("\x7b\x7b ." ++ F ++ " \x7d\x7d") _
      (alias_of_brace _ (by simp)) (Parse_record_field F hF)
    exact ⟨h1, _, Output_render_failed _ c lvl s _ _ _ (hal _ rfl) h2
      (Execute_record_field F _ hn)⟩
  · obtain ⟨h1, h2⟩ := SetTpl_compiled l
      "abc\x7b\x7b .Level \x7d\x7d\x7b\x7b .Message.BROKEN \x7d\x7ddef" _
      (alias_other _ (by decide)) Parse_text_then_broken
    exact ⟨h1, _, _, h2, Execute_text_then_broken _,
      Output_render_failed _ c lvl s _ _ _ (hal _ rfl) h2 (Execute_text_then_broken _)⟩

theorem Output_render_error_witness :
    (∃ N ∈ levelKeys, equalIgnoringCase ERROR N ∧ levels N ≥ levels testLogger.Level.value) ∧
    ((testLogger.Template.Set "abc\x7b\x7b .Level \x7d\x7d\x7b\x7b .Message.BROKEN \x7d\x7ddef").1
        = none ∧
      ∃ (e : Template) (err : GoString),
        (testLogger.SetTpl
            "abc\x7b\x7b .Level \x7d\x7d\x7b\x7b .Message.BROKEN \x7d\x7ddef").Template.engine
          = some e
        ∧ e.Execute ((testLogger.SetTpl
            "abc\x7b\x7b .Level \x7d\x7d\x7b\x7b .Message.BROKEN \x7d\x7ddef").msg testCall ERROR
              "Hello, World!")
          = ⟨"abc" ++ ERROR, some err⟩
        ∧ (testLogger.SetTpl
            "abc\x7b\x7b .Level \x7d\x7d\x7b\x7b .Message.BROKEN \x7d\x7ddef").Output testCall ERROR
              "Hello, World!"
          = some (some ("lgr: " ++ err),
              testLogger.SetTpl
                "abc\x7b\x7b .Level \x7d\x7d\x7b\x7b .Message.BROKEN \x7d\x7ddef")) :=
  ⟨by decide,
    (Output_render_error testLogger testCall ERROR "Hello, World!" (by decide)).2.2.2.2⟩

end Lgr
